import Mathlib

/-!
Shallow embedding of src/local_scheduler/local_scheduler_algorithm.cc, the
scheduling-algorithm core of a per-node task scheduler.  Machine pointers and
ids are modelled as natural numbers; the C doubles used for resource vectors
are modelled as integers, because the algorithm only ever compares them; the
fatal CHECK macro is modelled by returning none; the debug-only DCHECK macro
compiles to nothing in release builds and is modelled as a no-op.  External
collaborator calls with no feedback into the algorithm state - task-table
writes, plasma fetch requests, reconstruction, logging - are dropped.  The two
collaborator calls that do feed back, assign_task_to_worker and start_worker,
live outside this translation unit and are modelled from the spec, as marked
on their definitions.  Iterators into the waiting queue are modelled as the
task_id of the entry they reference, and the std vectors and lists by Lean
lists.  Two ghost fields, assigned_log and submitted_log, record externally
observable hand-offs; no definition reads them back.
-/

namespace LocalSchedulerAlgorithm

abbrev ObjectID := Nat
abbrev ActorID := Nat
abbrev DriverID := Nat
abbrev ClientID := Nat

/-- The NIL_ACTOR_ID sentinel: actor_id equal to it means a non-actor task. -/
def NIL_ACTOR_ID : ActorID := 0

/-- One task argument: a by-reference object id or an inline value (whose
payload the scheduling algorithm never inspects). -/
inductive TaskArg where
  | byRef (obj : ObjectID)
  | byValue
deriving DecidableEq

/-- The fields of the (opaque, accessor-driven) TaskSpec that the algorithm
reads: TaskSpec_driver_id, TaskSpec_task_id, TaskSpec_actor_id,
TaskSpec_actor_counter, the argument accessors and
TaskSpec_get_required_resource. -/
structure TaskSpec where
  driver_id : DriverID
  task_id : Nat
  actor_id : ActorID
  actor_counter : Int
  args : List TaskArg
  required_resources : List Int
deriving DecidableEq

/-- TaskSpec_is_dependent_on: true when some argument is a by-ref reference
to the given object. -/
def TaskSpec_is_dependent_on (spec : TaskSpec) (obj_id : ObjectID) : Bool :=
  spec.args.any (fun a => a == TaskArg.byRef obj_id)

/-- A queued task: a heap copy of the spec plus its size. -/
structure TaskQueueEntry where
  spec : TaskSpec
  task_spec_size : Int
deriving DecidableEq

/-- Object table entry: the object id plus the cursors (modelled by the
task_id of the referenced waiting-queue entry) of dependent queued tasks. -/
structure ObjectEntry where
  object_id : ObjectID
  dependent_tasks : List Nat
deriving DecidableEq

/-- Per-actor information (LocalActorInfo). -/
structure LocalActorInfo where
  actor_id : ActorID
  task_counter : Int
  task_queue : List TaskQueueEntry
  worker : Option ClientID
  worker_available : Bool
deriving DecidableEq

/-- The scheduling-algorithm state (SchedulingAlgorithmState) together with
the fields of the surrounding LocalSchedulerState that the algorithm reads:
actor_mapping, the db client id, db connectivity, the two resource vectors
and child_pids (modelled by its size).  assigned_log and submitted_log are
ghost fields recording hand-offs to workers and handler invocations. -/
structure State where
  waiting_task_queue : List TaskQueueEntry
  dispatch_task_queue : List TaskQueueEntry
  local_actor_infos : List (ActorID × LocalActorInfo)
  cached_submitted_actor_tasks : List TaskSpec
  cached_submitted_actor_task_sizes : List Int
  available_workers : List ClientID
  executing_workers : List ClientID
  blocked_workers : List ClientID
  local_objects : List (ObjectID × ObjectEntry)
  remote_objects : List (ObjectID × ObjectEntry)
  actor_mapping : List (ActorID × Nat)
  self_id : Nat
  db : Bool
  static_resources : List Int
  dynamic_resources : List Int
  child_pids : Nat
  assigned_log : List (TaskSpec × Option ClientID)
  submitted_log : List TaskSpec
deriving DecidableEq

/-- Association-list lookup, modelling unordered_map find / count. -/
def alookup {α : Type} : List (Nat × α) → Nat → Option α
  | [], _ => none
  | p :: ps, k => if p.1 = k then some p.2 else alookup ps k

/-- Association-list erase, modelling unordered_map erase by key. -/
def aerase {α : Type} : List (Nat × α) → Nat → List (Nat × α)
  | [], _ => []
  | p :: ps, k => if p.1 = k then aerase ps k else p :: aerase ps k

/-- Association-list value replacement at an existing key, modelling a write
through an unordered_map reference. -/
def aupdate {α : Type} : List (Nat × α) → Nat → α → List (Nat × α)
  | [], _, _ => []
  | p :: ps, k, v => if p.1 = k then (k, v) :: aupdate ps k v else p :: aupdate ps k v

/-- Dereference a waiting-queue cursor: the first entry with the given
task_id (cursors are unique in a well-formed state). -/
def find_task : List TaskQueueEntry → Nat → Option TaskQueueEntry
  | [], _ => none
  | e :: es, c => if e.spec.task_id = c then some e else find_task es c

/-- Erase the waiting-queue entry a cursor references (list::erase at the
iterator): removes the first entry with the given task_id. -/
def erase_task : List TaskQueueEntry → Nat → List TaskQueueEntry
  | [], _ => []
  | e :: es, c => if e.spec.task_id = c then es else e :: erase_task es c

/-- can_run: every by-ref argument is present in local_objects. -/
def can_run (st : State) (task : TaskSpec) : Bool :=
  task.args.all (fun a =>
    match a with
    | TaskArg.byRef obj_id => (alookup st.local_objects obj_id).isSome
    | TaskArg.byValue => true)

/-- worker_in_vector. -/
def worker_in_vector (worker_vector : List ClientID) (worker : ClientID) : Bool :=
  worker_vector.contains worker

/-- The effect of remove_worker_from_vector when the worker is found: the C
code swaps the found element with the vector's back and pops the back, so the
result is the prefix before the first occurrence, then the last element, then
the middle part (when the occurrence is not itself the last element). -/
def swap_remove_go (worker : ClientID) : List ClientID → Option (List ClientID)
  | [] => none
  | x :: xs =>
    if x = worker then
      some (match xs.getLast? with
            | none => []
            | some last => last :: xs.dropLast)
    else (swap_remove_go worker xs).map (fun v => x :: v)

/-- remove_worker_from_vector: returns whether the worker was present,
and the vector with its first occurrence swap-removed. -/
def remove_worker_from_vector (worker_vector : List ClientID) (worker : ClientID) :
    Bool × List ClientID :=
  match swap_remove_go worker worker_vector with
  | none => (false, worker_vector)
  | some v => (true, v)

/-- Modelled from the spec: assign(task_spec, worker) of the worker-assignment
collaborator (assign_task_to_worker, defined outside src/ in
local_scheduler.cc) hands the task to the worker and debits dynamic_resources
by the task's required_resources.  The hand-off is recorded in the ghost
assigned_log. -/
def assign_task_to_worker (st : State) (spec : TaskSpec) (_task_spec_size : Int)
    (worker : Option ClientID) : State :=
  { st with
    dynamic_resources := List.zipWith (fun d r => d - r) st.dynamic_resources spec.required_resources,
    assigned_log := st.assigned_log ++ [(spec, worker)] }

/-- Modelled from the spec: start_worker (defined outside src/) requests a new
worker process; completion arrives later as a connection event.  The forked
child is tracked in child_pids. -/
def start_worker (st : State) : State :=
  { st with child_pids := st.child_pids + 1 }

/-- Componentwise resource-fit test of the dispatch loop: the task is
satisfied when no required resource exceeds the dynamic resource. -/
def task_satisfied (required dynamic : List Int) : Bool :=
  (required.zip dynamic).all (fun p => decide (p.1 ≤ p.2))

/-- The assignment step of the dispatch loop: hand the fitting task to the
last available worker (the back of the vector, popped) and move that worker
to executing_workers. -/
def assign_step (st : State) (task : TaskQueueEntry) : State :=
  let worker := st.available_workers.getLastD 0
  let st1 := assign_task_to_worker st task.spec task.task_spec_size (some worker)
  { st1 with
    available_workers := st1.available_workers.dropLast,
    executing_workers := st1.executing_workers ++ [worker] }

/-- The loop of dispatch_tasks over the dispatch queue.  kept holds the
already-visited entries that were skipped; rest is the remainder of the
queue.  The loop exits early when no worker is available (spawning one if no
child process is pending registration) or when every dynamic resource is
exhausted; a task that does not fit is skipped in place; a fitting task is
assigned to the last available worker, which moves to executing_workers. -/
def dispatch_tasks_go : State → List TaskQueueEntry → List TaskQueueEntry → State
  | st, kept, [] => { st with dispatch_task_queue := kept }
  | st, kept, task :: rest =>
    if st.available_workers = [] then
      let st1 := { st with dispatch_task_queue := kept ++ task :: rest }
      if st1.child_pids = 0 then start_worker st1 else st1
    else if st.dynamic_resources.any (fun r => decide (0 < r)) then
      if task_satisfied task.spec.required_resources st.dynamic_resources then
        dispatch_tasks_go (assign_step st task) kept rest
      else dispatch_tasks_go st (kept ++ [task]) rest
    else { st with dispatch_task_queue := kept ++ task :: rest }

/-- dispatch_tasks: assign as many tasks from the dispatch queue as possible. -/
def dispatch_tasks (st : State) : State :=
  dispatch_tasks_go st [] st.dispatch_task_queue

/-- dispatch_actor_task.  The leading CHECKs (actor id not NIL, the actor
mapping present and naming this scheduler, a LocalActorInfo present) abort on
violation.  The source tests head counter inequality first and then asserts
strictly-greater; testing equality first is the same decision tree. -/
def dispatch_actor_task (st : State) (actor_id : ActorID) : Option (State × Bool) :=
  if actor_id = NIL_ACTOR_ID then none
  else
    match alookup st.actor_mapping actor_id with
    | none => none
    | some lsid =>
      if lsid = st.self_id then
        match alookup st.local_actor_infos actor_id with
        | none => none
        | some entry =>
          match entry.task_queue with
          | [] => some (st, false)
          | first_task :: rest =>
            if first_task.spec.actor_counter = entry.task_counter then
              if entry.worker_available then
                let st1 := assign_task_to_worker st first_task.spec first_task.task_spec_size entry.worker
                some ({ st1 with
                  local_actor_infos := aupdate st1.local_actor_infos actor_id
                    { entry with
                      task_counter := entry.task_counter + 1,
                      worker_available := false,
                      task_queue := rest } }, true)
              else some (st, false)
            else if first_task.spec.actor_counter > entry.task_counter then some (st, false)
            else none
      else none

/-- create_actor: CHECK that no LocalActorInfo exists, then insert a fresh
one with task_counter 0, empty queue and unavailable worker. -/
def create_actor (st : State) (actor_id : ActorID) (worker : Option ClientID) : Option State :=
  if alookup st.local_actor_infos actor_id = none then
    some { st with
      local_actor_infos := st.local_actor_infos ++
        [(actor_id, { actor_id := actor_id, task_counter := 0, task_queue := [],
                      worker := worker, worker_available := false })] }
  else none

/-- Stable ordered insertion of the actor-queue loop: advance while the
incoming counter is strictly greater than the existing entry's counter, then
insert before the stopping position. -/
def insert_by_counter (task_counter : Int) (elt : TaskQueueEntry) :
    List TaskQueueEntry → List TaskQueueEntry
  | [] => [elt]
  | e :: es =>
    if task_counter > e.spec.actor_counter then e :: insert_by_counter task_counter elt es
    else elt :: e :: es

/-- add_task_to_actor_queue: lazily create the LocalActorInfo, CHECK the
incoming actor counter is at least task_counter, insert in counter order.
The task-table add/update is an external write. -/
def add_task_to_actor_queue (st : State) (spec : TaskSpec) (task_spec_size : Int)
    (_from_global_scheduler : Bool) : Option State :=
  match
    (if alookup st.local_actor_infos spec.actor_id = none
     then create_actor st spec.actor_id none
     else some st) with
  | none => none
  | some st1 =>
    match alookup st1.local_actor_infos spec.actor_id with
    | none => none
    | some entry =>
      if spec.actor_counter ≥ entry.task_counter then
        some { st1 with
          local_actor_infos := aupdate st1.local_actor_infos spec.actor_id
            { entry with
              task_queue := insert_by_counter spec.actor_counter
                { spec := spec, task_spec_size := task_spec_size } entry.task_queue } }
      else none

/-- give_task_to_local_scheduler: CHECK the db connection, then write the
task row (status SCHEDULED, owner the responsible scheduler) - an external
effect. -/
def give_task_to_local_scheduler (st : State) (_spec : TaskSpec) (_task_spec_size : Int)
    (_local_scheduler_id : Nat) : Option State :=
  if st.db then some st else none

/-- handle_actor_task_submitted: cache the spec when the actor's location is
unknown; queue locally and try to dispatch when this scheduler is
responsible; otherwise hand the task to the responsible scheduler. -/
def handle_actor_task_submitted (st0 : State) (spec : TaskSpec) (task_spec_size : Int) :
    Option State :=
  if spec.actor_id = NIL_ACTOR_ID then none
  else
    match alookup st0.actor_mapping spec.actor_id with
    | none =>
      some { st0 with
        submitted_log := st0.submitted_log ++ [spec],
        cached_submitted_actor_tasks := st0.cached_submitted_actor_tasks ++ [spec],
        cached_submitted_actor_task_sizes := st0.cached_submitted_actor_task_sizes ++ [task_spec_size] }
    | some lsid =>
      if lsid = st0.self_id then
        match add_task_to_actor_queue { st0 with submitted_log := st0.submitted_log ++ [spec] }
            spec task_spec_size false with
        | none => none
        | some st1 =>
          match dispatch_actor_task st1 spec.actor_id with
          | none => none
          | some p => some p.1
      else give_task_to_local_scheduler { st0 with submitted_log := st0.submitted_log ++ [spec] }
        spec task_spec_size lsid

/-- The index loop of handle_actor_creation_notification: resubmit the cached
spec at index i, then continue with the next index, n more times.  The body
may append to the cached arrays; the loop reads through the live arrays. -/
def notif_loop : State → Nat → Nat → Option State
  | st, _, 0 => some st
  | st, i, Nat.succ m =>
    match st.cached_submitted_actor_tasks.get? i,
          st.cached_submitted_actor_task_sizes.get? i with
    | some spec, some task_spec_size =>
      match handle_actor_task_submitted st spec task_spec_size with
      | some st1 => notif_loop st1 (i + 1) m
      | none => none
    | _, _ => none

/-- handle_actor_creation_notification: CHECK the two cached arrays have
equal length, snapshot that length, resubmit indices 0..N-1, then erase
exactly the first N entries of both arrays. -/
def handle_actor_creation_notification (st : State) (_actor_id : ActorID) : Option State :=
  if st.cached_submitted_actor_tasks.length = st.cached_submitted_actor_task_sizes.length then
    match notif_loop st 0 st.cached_submitted_actor_tasks.length with
    | some st1 =>
      some { st1 with
        cached_submitted_actor_tasks :=
          st1.cached_submitted_actor_tasks.drop st.cached_submitted_actor_tasks.length,
        cached_submitted_actor_task_sizes :=
          st1.cached_submitted_actor_task_sizes.drop st.cached_submitted_actor_tasks.length }
    | none => none
  else none

/-- handle_actor_task_scheduled: the DCHECKs (db present, global scheduler,
actor id not NIL, mapping naming this node when present) compile out; the
absent-mapping case is only logged.  The task is queued on the actor and a
dispatch is attempted. -/
def handle_actor_task_scheduled (st : State) (spec : TaskSpec) (task_spec_size : Int) :
    Option State :=
  match add_task_to_actor_queue st spec task_spec_size true with
  | none => none
  | some st1 =>
    match dispatch_actor_task st1 spec.actor_id with
    | none => none
    | some p => some p.1

/-- fetch_missing_dependency: create a remote-object entry when absent (also
issuing a best-effort plasma fetch, an external effect), then append the
cursor to the entry's dependent task list. -/
def fetch_missing_dependency (st : State) (task_entry_cursor : Nat) (obj_id : ObjectID) :
    State :=
  match alookup st.remote_objects obj_id with
  | none =>
    { st with remote_objects := st.remote_objects ++
        [(obj_id, { object_id := obj_id, dependent_tasks := [task_entry_cursor] })] }
  | some entry =>
    { st with remote_objects := aupdate st.remote_objects obj_id ({ entry with dependent_tasks := entry.dependent_tasks ++ [task_entry_cursor] }) }

/-- The cursors that the waiting-queue walk of handle_object_removed
registers for one entry: one per by-ref argument equal to the removed id. -/
def arg_cursors (obj_id : ObjectID) (e : TaskQueueEntry) : List Nat :=
  e.spec.args.filterMap (fun a =>
    match a with
    | TaskArg.byRef g => if g = obj_id then some e.spec.task_id else none
    | TaskArg.byValue => none)

/-- One step of the argument walk: when the argument is a by-ref reference
to the removed object, register a fetch for the entry cursor. -/
def register_one_fetch (obj_id : ObjectID) (tid : Nat) (s2 : State) (a : TaskArg) : State :=
  match a with
  | TaskArg.byRef g =>
    if g = obj_id then fetch_missing_dependency s2 tid obj_id else s2
  | TaskArg.byValue => s2

/-- The per-entry body of the waiting-queue walk of handle_object_removed:
register a fetch for every by-ref argument equal to the removed object id. -/
def register_object_fetches (obj_id : ObjectID) (s : State) (e : TaskQueueEntry) : State :=
  e.spec.args.foldl (register_one_fetch obj_id e.spec.task_id) s

/-- handle_object_removed: CHECK the object is locally present and erase it;
splice every dispatch-queue task dependent on it to the tail of the waiting
queue; then walk the whole waiting queue registering a fetch for every by-ref
argument equal to the removed id. -/
def handle_object_removed (st : State) (removed_object_id : ObjectID) : Option State :=
  if (alookup st.local_objects removed_object_id).isSome then
    let st1 := { st with
      local_objects := aerase st.local_objects removed_object_id,
      dispatch_task_queue := st.dispatch_task_queue.filter
        (fun (e : TaskQueueEntry) => !(TaskSpec_is_dependent_on e.spec removed_object_id)),
      waiting_task_queue := st.waiting_task_queue ++
        st.dispatch_task_queue.filter
          (fun (e : TaskQueueEntry) => TaskSpec_is_dependent_on e.spec removed_object_id) }
    some (st1.waiting_task_queue.foldl (register_object_fetches removed_object_id) st1)
  else none

/-- The per-cursor body of handle_object_available: dereference the cursor
into the waiting queue; when the task can now run, push its entry to the tail
of the dispatch queue and erase it from the waiting queue (the spec is not
freed - ownership transfers). -/
def move_runnable (s : State) (c : Nat) : State :=
  match find_task s.waiting_task_queue c with
  | some e =>
    if can_run s e.spec then
      { s with
        dispatch_task_queue := s.dispatch_task_queue ++ [e],
        waiting_task_queue := erase_task s.waiting_task_queue c }
    else s
  | none => s

/-- handle_object_available: take the remote-object entry if one exists
(erasing it) or make a fresh one; CHECK the object is not already local;
store the entry into local_objects; when its dependent list is nonempty,
move the now-runnable dependent tasks to the dispatch queue and run
dispatch_tasks.  The source's final clear of the dependent list acts on a
dead stack copy, so the entry stored in local_objects keeps its cursors. -/
def handle_object_available (st : State) (object_id : ObjectID) : Option State :=
  match alookup st.remote_objects object_id with
  | some entry =>
    if (alookup st.local_objects object_id).isSome then none
    else if entry.dependent_tasks = [] then
      some { st with
        remote_objects := aerase st.remote_objects object_id,
        local_objects := st.local_objects ++ [(object_id, entry)] }
    else
      some (dispatch_tasks (entry.dependent_tasks.foldl move_runnable
        { st with
          remote_objects := aerase st.remote_objects object_id,
          local_objects := st.local_objects ++ [(object_id, entry)] }))
  | none =>
    if (alookup st.local_objects object_id).isSome then none
    else
      some { st with
        remote_objects := aerase st.remote_objects object_id,
        local_objects := st.local_objects ++
          [(object_id, { object_id := object_id, dependent_tasks := [] })] }

/-- Whether a remote-object cursor references a waiting task of the given
driver (the purge test of handle_driver_removed, which dereferences the
cursor's spec). -/
def cursor_driver_is (wq : List TaskQueueEntry) (c : Nat) (driver_id : DriverID) : Bool :=
  match find_task wq c with
  | some e => e.spec.driver_id == driver_id
  | none => false

/-- handle_driver_removed: purge the removed driver's cursors from every
remote-object entry (against the waiting queue as it is before any list is
mutated), dropping entries whose dependent list empties; then remove the
driver's tasks from the waiting and dispatch queues.  Actor structures are
left alone (an explicit TODO in the source). -/
def handle_driver_removed (st : State) (driver_id : DriverID) : State :=
  { st with
    remote_objects :=
      (st.remote_objects.map (fun p =>
        (p.1, { object_id := p.2.object_id,
                dependent_tasks := p.2.dependent_tasks.filter
                  (fun c => !(cursor_driver_is st.waiting_task_queue c driver_id)) }))).filter
        (fun p => !(p.2.dependent_tasks.isEmpty)),
    waiting_task_queue :=
      st.waiting_task_queue.filter (fun e => !(e.spec.driver_id == driver_id)),
    dispatch_task_queue :=
      st.dispatch_task_queue.filter (fun e => !(e.spec.driver_id == driver_id)) }

/-- handle_worker_available: CHECK the worker has no task in progress (its
value is passed in, standing for worker->task_in_progress == NULL being
false/true); remove the worker from executing_workers if present; append it
to available_workers; redispatch. -/
def handle_worker_available (st : State) (worker : ClientID) (task_in_progress : Bool) :
    Option State :=
  if task_in_progress then none
  else
    let st1 := { st with
      executing_workers := (remove_worker_from_vector st.executing_workers worker).2 }
    let st2 := { st1 with available_workers := st1.available_workers ++ [worker] }
    some (dispatch_tasks st2)

/-- handle_worker_blocked: CHECK-remove the worker from executing_workers,
append it to blocked_workers, redispatch. -/
def handle_worker_blocked (st : State) (worker : ClientID) : Option State :=
  let r := remove_worker_from_vector st.executing_workers worker
  if r.1 then
    some (dispatch_tasks { st with
      executing_workers := r.2,
      blocked_workers := st.blocked_workers ++ [worker] })
  else none

/-- handle_worker_unblocked: CHECK-remove the worker from blocked_workers,
append it to executing_workers; no redispatch. -/
def handle_worker_unblocked (st : State) (worker : ClientID) : Option State :=
  let r := remove_worker_from_vector st.blocked_workers worker
  if r.1 then
    some { st with
      blocked_workers := r.2,
      executing_workers := st.executing_workers ++ [worker] }
  else none

/-- handle_worker_removed: CHECK the worker is not an actor worker, remove it
from each of the three vectors, and CHECK it was removed at most once. -/
def handle_worker_removed (st : State) (worker : ClientID) (worker_actor_id : ActorID) :
    Option State :=
  if worker_actor_id = NIL_ACTOR_ID then
    let ra := remove_worker_from_vector st.available_workers worker
    let re := remove_worker_from_vector st.executing_workers worker
    let rb := remove_worker_from_vector st.blocked_workers worker
    let n := (if ra.1 then 1 else 0) + (if re.1 then 1 else 0) + (if rb.1 then 1 else 0)
    if n ≤ 1 then
      some { st with
        available_workers := ra.2,
        executing_workers := re.2,
        blocked_workers := rb.2 }
    else none
  else none

/-- The worker-pool invariant: no worker appears in more than one of the
three vectors, nor twice in one of them. -/
def workers_disjoint (st : State) : Prop :=
  (st.available_workers ++ st.executing_workers ++ st.blocked_workers).Nodup

/-- Pointwise comparison of the dynamic resource vector against the static
capacity vector. -/
def vec_le_pt (a b : List Int) : Prop :=
  a.length = b.length ∧ ∀ p ∈ a.zip b, p.1 ≤ p.2

/-- All entries of a resource vector are nonnegative. -/
def all_nonneg (l : List Int) : Prop := ∀ r ∈ l, 0 ≤ r

/-- A requirement vector exceeds a capacity vector in some component. -/
def exceeds_cap (required cap : List Int) : Bool :=
  (required.zip cap).any (fun p => decide (p.2 < p.1))

/-- Whether a task's actor is absent from the actor-mapping collaborator. -/
def actor_unknown (st : State) (spec : TaskSpec) : Bool :=
  (alookup st.actor_mapping spec.actor_id).isNone

/-- Resource well-formedness: the dynamic vector has the static vector's
length and never exceeds the static capacity componentwise. -/
def resources_wf (st : State) : Prop :=
  st.dynamic_resources.length = st.static_resources.length ∧
  ∀ p ∈ st.dynamic_resources.zip st.static_resources, p.1 ≤ p.2

/-- Task well-formedness for a queue: nonnegative resource demands of full
vector length. -/
def tasks_wf (st : State) (l : List TaskQueueEntry) : Prop :=
  ∀ e ∈ l, (∀ r ∈ e.spec.required_resources, 0 ≤ r) ∧
    e.spec.required_resources.length = st.static_resources.length


/-- A baseline state for the concrete instances below: empty queues and
tables, a connected db, two resource kinds at capacity 1, and one child
process pending registration. -/
def st_empty : State where
  waiting_task_queue := []
  dispatch_task_queue := []
  local_actor_infos := []
  cached_submitted_actor_tasks := []
  cached_submitted_actor_task_sizes := []
  available_workers := []
  executing_workers := []
  blocked_workers := []
  local_objects := []
  remote_objects := []
  actor_mapping := []
  self_id := 0
  db := true
  static_resources := [1, 1]
  dynamic_resources := [1, 1]
  child_pids := 1
  assigned_log := []
  submitted_log := []

/-- An actor task (actor 3, counter 0) whose actor-creation notification has
not arrived: actor 3 is absent from actor_mapping of st_empty. -/
def spec_c4 : TaskSpec :=
  { driver_id := 0, task_id := 1, actor_id := 3, actor_counter := 0,
    args := [], required_resources := [0, 0] }

/-- A task whose single argument is a by-ref reference to object 7. -/
def spec_c5 : TaskSpec :=
  { driver_id := 0, task_id := 1, actor_id := NIL_ACTOR_ID, actor_counter := 0,
    args := [TaskArg.byRef 7], required_resources := [0, 0] }

/-- Object 7 is being fetched with one dependent waiting task (spec_c5). -/
def st_c5 : State :=
  { st_empty with
    waiting_task_queue := [{ spec := spec_c5, task_spec_size := 4 }],
    remote_objects := [(7, { object_id := 7, dependent_tasks := [1] })] }

/-- An actor task for the concrete dispatch_actor_task instance: actor 2,
counter 0. -/
def spec_c1 : TaskSpec :=
  { driver_id := 0, task_id := 5, actor_id := 2, actor_counter := 0,
    args := [], required_resources := [0, 0] }

/-- A LocalActorInfo whose queue head matches task_counter and whose worker
is available. -/
def info_c1 : LocalActorInfo :=
  { actor_id := 2, task_counter := 0,
    task_queue := [{ spec := spec_c1, task_spec_size := 4 }],
    worker := some 9, worker_available := true }

/-- A state owning actor 2 with info_c1. -/
def st_c1 : State :=
  { st_empty with
    actor_mapping := [(2, 0)],
    local_actor_infos := [(2, info_c1)] }

/-- A state with one executing worker, for the worker-available instance. -/
def st_c10 : State :=
  { st_empty with executing_workers := [4] }

/-- A dispatch-queue task requiring more CPU than is dynamically available
in st_c2. -/
def tq_c2a : TaskQueueEntry :=
  { spec := { driver_id := 0, task_id := 1, actor_id := NIL_ACTOR_ID, actor_counter := 0,
              args := [], required_resources := [2, 0] }, task_spec_size := 4 }

/-- A dispatch-queue task that fits the dynamic resources of st_c2. -/
def tq_c2b : TaskQueueEntry :=
  { spec := { driver_id := 0, task_id := 2, actor_id := NIL_ACTOR_ID, actor_counter := 0,
              args := [], required_resources := [1, 0] }, task_spec_size := 4 }

/-- Dispatch queue holding the too-large task tq_c2a ahead of the fitting
task tq_c2b, with one available worker. -/
def st_c2 : State :=
  { st_empty with
    dispatch_task_queue := [tq_c2a, tq_c2b],
    available_workers := [5],
    dynamic_resources := [1, 1] }
/-- An actor task for actor 4, cached because the actor is unknown. -/
def spec_c7 : TaskSpec :=
  { driver_id := 0, task_id := 3, actor_id := 4, actor_counter := 0,
    args := [], required_resources := [0, 0] }

/-- A state with one cached actor task whose actor stays unknown; an actor
creation notification replays and re-caches it. -/
def st_c7 : State :=
  { st_empty with
    cached_submitted_actor_tasks := [spec_c7],
    cached_submitted_actor_task_sizes := [6] }

/-- The state after the notification replay on st_c7: the cached task was
re-submitted once (ghost log) and re-cached because actor 4 is still
unknown, and the original first entry of each array was erased. -/
def st_c7w : State :=
  { st_c7 with submitted_log := [spec_c7] }

/-- A state whose dispatch queue holds only the task tq_c2a, which requires
more CPU (2) than the static capacity (1). -/
def st_c9 : State :=
  { st_empty with
    dispatch_task_queue := [tq_c2a],
    available_workers := [5],
    dynamic_resources := [1, 1] }


/-- The cursors one argument list contributes for an object: one copy of the
cursor per by-ref argument equal to the object id (arg_cursors with the task
id abstracted, in recursive form). -/
def arg_cursors_list (obj_id : ObjectID) (tid : Nat) : List TaskArg → List Nat
  | [] => []
  | TaskArg.byRef g :: rest =>
    if g = obj_id then tid :: arg_cursors_list obj_id tid rest
    else arg_cursors_list obj_id tid rest
  | TaskArg.byValue :: rest => arg_cursors_list obj_id tid rest

/-- A remote-object table extended with an entry for the given object exactly
when the cursor list is nonempty: the shape the registration walk produces. -/
def radd (R0 : List (ObjectID × ObjectEntry)) (obj_id : ObjectID) (cs : List Nat) :
    List (ObjectID × ObjectEntry) :=
  if cs = [] then R0
  else R0 ++ [(obj_id, { object_id := obj_id, dependent_tasks := cs })]

/-- A task blocked on some missing object other than obj_id: the waiting
queue invariant needed for a round trip on obj_id. -/
def blocked_elsewhere (st : State) (obj_id : ObjectID) (e : TaskQueueEntry) : Bool :=
  e.spec.args.any (fun a =>
    match a with
    | TaskArg.byRef g => !(g == obj_id) && (alookup st.local_objects g).isNone
    | TaskArg.byValue => false)

/-- A task that depends (by-ref) on object 5. -/
def tq_c3a : TaskQueueEntry :=
  { spec := { driver_id := 0, task_id := 1, actor_id := 0, actor_counter := 0,
              args := [TaskArg.byRef 5], required_resources := [0, 0] },
    task_spec_size := 1 }

/-- A task with no arguments. -/
def tq_c3b : TaskQueueEntry :=
  { spec := { driver_id := 0, task_id := 2, actor_id := 0, actor_counter := 0,
              args := [], required_resources := [0, 0] },
    task_spec_size := 1 }

/-- Object 5 is local, the 5-dependent task is queued for dispatch ahead of
an independent one, and no worker is available. -/
def st_c3 : State :=
  { st_empty with
    local_objects := [(5, { object_id := 5, dependent_tasks := [] })],
    dispatch_task_queue := [tq_c3a, tq_c3b] }

/-- The state the round trip on object 5 actually produces from st_c3: the
dependent task moved to the dispatch tail, the stored entry carrying its
cursor. -/
def st_c3f : State :=
  { st_c3 with
    local_objects := [(5, { object_id := 5, dependent_tasks := [1] })],
    dispatch_task_queue := [tq_c3b, tq_c3a] }

/-- The fields of the algorithm state that the dispatch_tasks loop never
writes (it writes only the dispatch queue, the available and executing
vectors, dynamic_resources, child_pids and the ghost assigned_log). -/
def dispatch_untouched (st res : State) : Prop :=
  res.waiting_task_queue = st.waiting_task_queue ∧
  res.blocked_workers = st.blocked_workers ∧
  res.local_objects = st.local_objects ∧
  res.remote_objects = st.remote_objects ∧
  res.local_actor_infos = st.local_actor_infos ∧
  res.cached_submitted_actor_tasks = st.cached_submitted_actor_tasks ∧
  res.cached_submitted_actor_task_sizes = st.cached_submitted_actor_task_sizes ∧
  res.actor_mapping = st.actor_mapping ∧
  res.self_id = st.self_id ∧
  res.db = st.db ∧
  res.static_resources = st.static_resources ∧
  res.submitted_log = st.submitted_log

end LocalSchedulerAlgorithm

namespace LocalSchedulerAlgorithm

/-- Any list with a known last element is its dropLast followed by that
element. -/
theorem dropLast_append_of_getLast? {α : Type} :
    ∀ (l : List α) (x : α), l.getLast? = some x → l.dropLast ++ [x] = l := by
  intro l x h
  rcases List.eq_nil_or_concat l with rfl | ⟨ys, y, hl⟩
  · simp at h
  · rw [List.concat_eq_append] at hl
    subst hl
    rw [List.getLast?_concat] at h
    cases h
    rw [List.dropLast_concat]

/-- A nonempty list is its dropLast followed by its getLastD. -/
theorem dropLast_append_getLastD {α : Type} :
    ∀ (l : List α) (d : α), l ≠ [] → l.dropLast ++ [l.getLastD d] = l := by
  intro l d h
  rcases List.eq_nil_or_concat l with rfl | ⟨ys, y, hl⟩
  · exact absurd rfl h
  · rw [List.concat_eq_append] at hl
    subst hl
    rw [List.getLastD_concat, List.dropLast_concat]

/-- swap_remove_go returns none exactly when the worker is absent. -/
theorem swap_remove_go_none (w : ClientID) :
    ∀ v : List ClientID, swap_remove_go w v = none ↔ w ∉ v := by
  intro v
  induction v with
  | nil => simp [swap_remove_go]
  | cons a xs ih =>
    by_cases ha : a = w
    · subst ha
      simp [swap_remove_go]
    · simp only [swap_remove_go, if_neg ha, Option.map_eq_none', List.mem_cons]
      rw [ih]
      constructor
      · intro h hmem
        rcases hmem with h1 | h2
        · exact ha h1.symm
        · exact h h2
      · intro h
        exact fun h2 => h (Or.inr h2)

/-- Element counts before and after a successful swap-removal: exactly one
occurrence of the removed worker disappears. -/
theorem swap_remove_go_count (w : ClientID) :
    ∀ (v v' : List ClientID), swap_remove_go w v = some v' →
      ∀ x, v.count x = v'.count x + (if w = x then 1 else 0) := by
  intro v
  induction v with
  | nil => intro v' h; simp [swap_remove_go] at h
  | cons a xs ih =>
    intro v' h x
    by_cases ha : a = w
    · subst ha
      rw [swap_remove_go, if_pos rfl, Option.some_inj] at h
      rcases List.eq_nil_or_concat xs with rfl | ⟨ys, y, hl⟩
      · simp at h
        subst h
        simp only [List.count_cons, List.count_nil, beq_iff_eq]
      · rw [List.concat_eq_append] at hl
        subst hl
        rw [List.getLast?_concat] at h
        simp only at h
        rw [List.dropLast_concat] at h
        subst h
        simp only [List.count_cons, List.count_append, List.count_nil, beq_iff_eq]
        split_ifs <;> omega
    · rw [swap_remove_go, if_neg ha] at h
      rcases Option.map_eq_some'.mp h with ⟨u, hu, rfl⟩
      have := ih u hu x
      simp only [List.count_cons, this, beq_iff_eq]
      split_ifs <;> omega

/-- The count never increases under remove_worker_from_vector. -/
theorem remove_worker_count_le (v : List ClientID) (w x : ClientID) :
    ((remove_worker_from_vector v w).2).count x ≤ v.count x := by
  unfold remove_worker_from_vector
  cases h : swap_remove_go w v with
  | none => simp
  | some u =>
    have := swap_remove_go_count w v u h x
    simp only
    omega

/-- Removing a worker that occurs at most once in the vector leaves a vector
not containing it. -/
theorem remove_worker_not_mem (v : List ClientID) (w : ClientID)
    (h : v.count w ≤ 1) : w ∉ (remove_worker_from_vector v w).2 := by
  unfold remove_worker_from_vector
  cases hg : swap_remove_go w v with
  | none => simpa using (swap_remove_go_none w v).mp hg
  | some u =>
    have h2 := swap_remove_go_count w v u hg w
    rw [if_pos rfl] at h2
    have hu : u.count w = 0 := by omega
    simpa using List.count_eq_zero.mp hu

/-- For any worker other than the removed one the count is unchanged. -/
theorem remove_worker_count_ne (v : List ClientID) (w x : ClientID) (hx : x ≠ w) :
    ((remove_worker_from_vector v w).2).count x = v.count x := by
  unfold remove_worker_from_vector
  cases h : swap_remove_go w v with
  | none => simp
  | some u =>
    have := swap_remove_go_count w v u h x
    rw [if_neg (Ne.symm hx)] at this
    simp only
    omega

/-- dispatch_untouched is reflexive. -/
theorem dispatch_untouched_refl (st : State) : dispatch_untouched st st :=
  ⟨rfl, rfl, rfl, rfl, rfl, rfl, rfl, rfl, rfl, rfl, rfl, rfl⟩

/-- dispatch_untouched composes. -/
theorem dispatch_untouched_trans {s1 s2 s3 : State}
    (h1 : dispatch_untouched s1 s2) (h2 : dispatch_untouched s2 s3) :
    dispatch_untouched s1 s3 := by
  obtain ⟨a1, a2, a3, a4, a5, a6, a7, a8, a9, a10, a11, a12⟩ := h1
  obtain ⟨b1, b2, b3, b4, b5, b6, b7, b8, b9, b10, b11, b12⟩ := h2
  exact ⟨b1.trans a1, b2.trans a2, b3.trans a3, b4.trans a4, b5.trans a5, b6.trans a6,
         b7.trans a7, b8.trans a8, b9.trans a9, b10.trans a10, b11.trans a11, b12.trans a12⟩

/-- Global characterisation of the dispatch loop: the surviving dispatch
queue is the kept prefix followed by a sublist of the remainder (skipped
tasks stay in place, in order); the workers taken are a suffix of
available_workers, popped from the back and appended, reversed, to
executing_workers; every hand-off is recorded in assigned_log, with exactly
the popped workers as assignees; all other fields are untouched. -/
theorem dispatch_tasks_go_char :
    ∀ (rest : List TaskQueueEntry) (st : State) (kept : List TaskQueueEntry),
      ∃ l t L,
        l.Sublist rest ∧
        (dispatch_tasks_go st kept rest).dispatch_task_queue = kept ++ l ∧
        st.available_workers = (dispatch_tasks_go st kept rest).available_workers ++ t ∧
        (dispatch_tasks_go st kept rest).executing_workers = st.executing_workers ++ t.reverse ∧
        (dispatch_tasks_go st kept rest).assigned_log = st.assigned_log ++ L ∧
        L.map Prod.snd = t.reverse.map some ∧
        dispatch_untouched st (dispatch_tasks_go st kept rest) := by
  intro rest
  induction rest with
  | nil =>
    intro st kept
    exact ⟨[], [], [], List.nil_sublist [], by simp [dispatch_tasks_go],
      by simp [dispatch_tasks_go], by simp [dispatch_tasks_go],
      by simp [dispatch_tasks_go], rfl, by exact dispatch_untouched_refl _⟩
  | cons task rest ih =>
    intro st kept
    by_cases h1 : st.available_workers = []
    · refine ⟨task :: rest, [], [], List.Sublist.refl _, ?_, ?_, ?_, ?_, rfl, ?_⟩ <;>
        simp only [dispatch_tasks_go, if_pos h1] <;>
        by_cases h2 : st.child_pids = 0 <;>
        simp [h2, start_worker, dispatch_untouched]
    · by_cases h2 : (st.dynamic_resources.any fun r => decide (0 < r)) = true
      · by_cases h3 : task_satisfied task.spec.required_resources st.dynamic_resources = true
        · have hstep : dispatch_tasks_go st kept (task :: rest) =
            dispatch_tasks_go (assign_step st task) kept rest := by
            simp [dispatch_tasks_go, if_neg h1, h2, h3]
          obtain ⟨l, t, L, hsub, hdq, hav, hex, hlog, hmap, hun⟩ := ih (assign_step st task) kept
          rw [hstep]
          refine ⟨l, t ++ [st.available_workers.getLastD 0],
            (task.spec, some (st.available_workers.getLastD 0)) :: L,
            hsub.cons task, hdq, ?_, ?_, ?_, ?_, ?_⟩
          · have hsplit : st.available_workers =
                (assign_step st task).available_workers ++ [st.available_workers.getLastD 0] := by
              simp only [assign_step, assign_task_to_worker]
              exact (dropLast_append_getLastD st.available_workers 0 h1).symm
            conv_lhs => rw [hsplit]
            rw [hav, List.append_assoc]
          · rw [hex]
            have : (assign_step st task).executing_workers =
                st.executing_workers ++ [st.available_workers.getLastD 0] := rfl
            rw [this, List.append_assoc, List.reverse_append]
            simp
          · rw [hlog]
            have : (assign_step st task).assigned_log =
                st.assigned_log ++ [(task.spec, some (st.available_workers.getLastD 0))] := rfl
            rw [this, List.append_assoc]
            simp
          · simp only [List.map_cons, hmap, List.reverse_append]
            simp
          · exact dispatch_untouched_trans (dispatch_untouched_refl _) hun
        · have hstep : dispatch_tasks_go st kept (task :: rest) =
            dispatch_tasks_go st (kept ++ [task]) rest := by
            simp [dispatch_tasks_go, if_neg h1, h2, h3]
          obtain ⟨l, t, L, hsub, hdq, hav, hex, hlog, hmap, hun⟩ := ih st (kept ++ [task])
          rw [hstep]
          exact ⟨task :: l, t, L, hsub.cons₂ task, by rw [hdq]; simp,
            hav, hex, hlog, hmap, hun⟩
      · refine ⟨task :: rest, [], [], List.Sublist.refl _, ?_, ?_, ?_, ?_, rfl, ?_⟩ <;>
          simp [dispatch_tasks_go, if_neg h1, h2, dispatch_untouched]

/-- C2: the dispatch loop leaves unfitting tasks in place and in order (the
surviving queue is a sublist of the original), pops assigned workers off the
back of available_workers and appends them to executing_workers, and records
each hand-off; and in the concrete skip scenario - a too-large head task, a
fitting second task, one available worker and some positive dynamic
resource - the second task is assigned to that worker and its entry erased
while the head task stays at the front. -/
theorem dispatch_tasks_skips_and_assigns :
    (∀ st : State, ∃ l t L,
      l.Sublist st.dispatch_task_queue ∧
      (dispatch_tasks st).dispatch_task_queue = l ∧
      st.available_workers = (dispatch_tasks st).available_workers ++ t ∧
      (dispatch_tasks st).executing_workers = st.executing_workers ++ t.reverse ∧
      (dispatch_tasks st).assigned_log = st.assigned_log ++ L ∧
      L.map Prod.snd = t.reverse.map some) ∧
    (∀ (st : State) (t1 t2 : TaskQueueEntry) (rest : List TaskQueueEntry) (w : ClientID),
      st.dispatch_task_queue = t1 :: t2 :: rest →
      st.available_workers = [w] →
      (st.dynamic_resources.any fun r => decide (0 < r)) = true →
      task_satisfied t1.spec.required_resources st.dynamic_resources = false →
      task_satisfied t2.spec.required_resources st.dynamic_resources = true →
      (dispatch_tasks st).dispatch_task_queue = t1 :: rest ∧
      (dispatch_tasks st).available_workers = [] ∧
      (dispatch_tasks st).executing_workers = st.executing_workers ++ [w] ∧
      (dispatch_tasks st).assigned_log = st.assigned_log ++ [(t2.spec, some w)] ∧
      (dispatch_tasks st).waiting_task_queue = st.waiting_task_queue) := by
  constructor
  · intro st
    obtain ⟨l, t, L, hsub, hdq, hav, hex, hlog, hmap, _hun⟩ :=
      dispatch_tasks_go_char st.dispatch_task_queue st []
    exact ⟨l, t, L, hsub, by simpa using hdq, hav, hex, hlog, hmap⟩
  · intro st t1 t2 rest w hdq hav hres h1f h2t
    cases rest with
    | nil =>
      refine ⟨?_, ?_, ?_, ?_, ?_⟩ <;>
        simp [dispatch_tasks, dispatch_tasks_go, hdq, hav, hres, h1f, h2t,
          assign_step, assign_task_to_worker]
    | cons r rs =>
      by_cases hc : st.child_pids = 0 <;>
        refine ⟨?_, ?_, ?_, ?_, ?_⟩ <;>
          simp [dispatch_tasks, dispatch_tasks_go, hdq, hav, hres, h1f, h2t, hc,
            assign_step, assign_task_to_worker, start_worker]

/-- C2 witness: at st_c2 the too-large head task tq_c2a is skipped while the
fitting tq_c2b is handed to worker 5. -/
theorem dispatch_tasks_skips_and_assigns_witness :
    (dispatch_tasks st_c2).dispatch_task_queue = tq_c2a :: [] ∧
    (dispatch_tasks st_c2).available_workers = [] ∧
    (dispatch_tasks st_c2).executing_workers = st_c2.executing_workers ++ [5] ∧
    (dispatch_tasks st_c2).assigned_log = st_c2.assigned_log ++ [(tq_c2b.spec, some 5)] ∧
    (dispatch_tasks st_c2).waiting_task_queue = st_c2.waiting_task_queue :=
  dispatch_tasks_skips_and_assigns.2 st_c2 tq_c2a tq_c2b [] 5 rfl rfl (by decide)
    (by decide) (by decide)

/-- The dispatch loop moves workers from available_workers to
executing_workers and leaves blocked_workers alone, so the total occurrence
count of every worker across the three vectors is unchanged. -/
theorem count_workers_dispatch (st : State) (a : ClientID) :
    ((dispatch_tasks st).available_workers ++ (dispatch_tasks st).executing_workers ++
        (dispatch_tasks st).blocked_workers).count a =
      (st.available_workers ++ st.executing_workers ++ st.blocked_workers).count a := by
  obtain ⟨l, t, L, _, _, hav, hex, _, _, hun⟩ :=
    dispatch_tasks_go_char st.dispatch_task_queue st []
  have hd : dispatch_tasks st = dispatch_tasks_go st [] st.dispatch_task_queue := rfl
  rw [hd, hex, hun.2.1]
  conv_rhs => rw [hav]
  simp only [List.count_append, List.count_reverse]
  omega

/-- dispatch_tasks preserves the worker-pool disjointness invariant. -/
theorem dispatch_tasks_preserves_disjoint (st : State) (h : workers_disjoint st) :
    workers_disjoint (dispatch_tasks st) := by
  unfold workers_disjoint at *
  rw [List.nodup_iff_count_le_one] at *
  intro a
  rw [count_workers_dispatch st a]
  exact h a

/-- Removing a worker from all three vectors preserves the disjointness
invariant: removals only lower occurrence counts. -/
theorem remove_worker_keeps_disjoint (st : State) (w : ClientID)
    (hinv : workers_disjoint st) :
    workers_disjoint { st with
      available_workers := (remove_worker_from_vector st.available_workers w).2,
      executing_workers := (remove_worker_from_vector st.executing_workers w).2,
      blocked_workers := (remove_worker_from_vector st.blocked_workers w).2 } := by
  unfold workers_disjoint at *
  rw [List.nodup_iff_count_le_one] at *
  intro a
  have htot := hinv a
  have h1 := remove_worker_count_le st.available_workers w a
  have h2 := remove_worker_count_le st.executing_workers w a
  have h3 := remove_worker_count_le st.blocked_workers w a
  simp only [List.count_append] at htot ⊢
  omega

/-- C6: each worker-pool handler preserves the invariant that no worker
appears in more than one of available_workers, executing_workers and
blocked_workers (nor twice overall).  handle_worker_available additionally
needs its two DCHECKed event preconditions (the worker is in neither the
available nor the blocked vector - §4.3 of the spec states both); the other
handlers need only their own CHECKs, expressed by the some result. -/
theorem worker_lists_disjoint_preserved :
    (∀ st w tip st', workers_disjoint st → w ∉ st.available_workers →
      w ∉ st.blocked_workers → handle_worker_available st w tip = some st' →
      workers_disjoint st') ∧
    (∀ st w st', workers_disjoint st → handle_worker_blocked st w = some st' →
      workers_disjoint st') ∧
    (∀ st w st', workers_disjoint st → handle_worker_unblocked st w = some st' →
      workers_disjoint st') ∧
    (∀ st w aid st', workers_disjoint st → handle_worker_removed st w aid = some st' →
      workers_disjoint st') ∧
    (∀ st, workers_disjoint st → workers_disjoint (dispatch_tasks st)) := by
  refine ⟨?_, ?_, ?_, ?_, fun st h => dispatch_tasks_preserves_disjoint st h⟩
  · intro st w tip st' hinv hna hnb hsome
    cases tip with
    | true =>
      have heq : handle_worker_available st w true = none := rfl
      rw [heq] at hsome
      exact Option.noConfusion hsome
    | false =>
      have heq : handle_worker_available st w false = some (dispatch_tasks
          { st with
            executing_workers := (remove_worker_from_vector st.executing_workers w).2,
            available_workers := st.available_workers ++ [w] }) := rfl
      rw [heq, Option.some_inj] at hsome
      subst hsome
      apply dispatch_tasks_preserves_disjoint
      unfold workers_disjoint at *
      rw [List.nodup_iff_count_le_one] at *
      intro a
      have htot := hinv a
      simp only [List.count_append] at htot ⊢
      by_cases haw : a = w
      · subst haw
        have h1 : st.available_workers.count a = 0 := List.count_eq_zero.mpr hna
        have h2 : st.blocked_workers.count a = 0 := List.count_eq_zero.mpr hnb
        have h3 : (remove_worker_from_vector st.executing_workers a).2.count a = 0 := by
          unfold remove_worker_from_vector
          cases hg : swap_remove_go a st.executing_workers with
          | none =>
            have := (swap_remove_go_none a st.executing_workers).mp hg
            simpa using List.count_eq_zero.mpr this
          | some u =>
            have hcnt := swap_remove_go_count a st.executing_workers u hg a
            rw [if_pos rfl] at hcnt
            simp only
            omega
        have h4 : List.count a [a] = 1 := by simp
        simp only [h1, h2, h3, h4]
        omega
      · have h3 : (remove_worker_from_vector st.executing_workers w).2.count a =
            st.executing_workers.count a := remove_worker_count_ne _ _ _ haw
        have h4 : List.count a [w] = 0 := List.count_eq_zero.mpr (by simp [haw])
        simp only [h3, h4]
        omega
  · intro st w st' hinv hsome
    cases hg : swap_remove_go w st.executing_workers with
    | none =>
      have heq : handle_worker_blocked st w = none := by
        unfold handle_worker_blocked remove_worker_from_vector
        rw [hg]
        rfl
      rw [heq] at hsome
      exact Option.noConfusion hsome
    | some u =>
      have heq : handle_worker_blocked st w = some (dispatch_tasks
          { st with executing_workers := u,
                    blocked_workers := st.blocked_workers ++ [w] }) := by
        unfold handle_worker_blocked remove_worker_from_vector
        rw [hg]
        rfl
      rw [heq, Option.some_inj] at hsome
      subst hsome
      apply dispatch_tasks_preserves_disjoint
      unfold workers_disjoint at *
      rw [List.nodup_iff_count_le_one] at *
      intro a
      have htot := hinv a
      have hcnt := swap_remove_go_count w st.executing_workers u hg a
      simp only [List.count_append] at htot ⊢
      by_cases haw : a = w
      · subst haw
        rw [if_pos rfl] at hcnt
        have h4 : List.count a [a] = 1 := by simp
        simp only [h4]
        omega
      · rw [if_neg (fun hh => haw hh.symm)] at hcnt
        have h4 : List.count a [w] = 0 := List.count_eq_zero.mpr (by simp [haw])
        simp only [h4]
        omega
  · intro st w st' hinv hsome
    cases hg : swap_remove_go w st.blocked_workers with
    | none =>
      have heq : handle_worker_unblocked st w = none := by
        unfold handle_worker_unblocked remove_worker_from_vector
        rw [hg]
        rfl
      rw [heq] at hsome
      exact Option.noConfusion hsome
    | some u =>
      have heq : handle_worker_unblocked st w = some
          { st with blocked_workers := u,
                    executing_workers := st.executing_workers ++ [w] } := by
        unfold handle_worker_unblocked remove_worker_from_vector
        rw [hg]
        rfl
      rw [heq, Option.some_inj] at hsome
      subst hsome
      unfold workers_disjoint at *
      rw [List.nodup_iff_count_le_one] at *
      intro a
      have htot := hinv a
      have hcnt := swap_remove_go_count w st.blocked_workers u hg a
      simp only [List.count_append] at htot ⊢
      by_cases haw : a = w
      · subst haw
        rw [if_pos rfl] at hcnt
        have h4 : List.count a [a] = 1 := by simp
        simp only [h4]
        omega
      · rw [if_neg (fun hh => haw hh.symm)] at hcnt
        have h4 : List.count a [w] = 0 := List.count_eq_zero.mpr (by simp [haw])
        simp only [h4]
        omega
  · intro st w aid st' hinv hsome
    by_cases hnil : aid = NIL_ACTOR_ID
    · subst hnil
      have heq : handle_worker_removed st w NIL_ACTOR_ID =
          if ((if (remove_worker_from_vector st.available_workers w).1 then 1 else 0) +
              (if (remove_worker_from_vector st.executing_workers w).1 then 1 else 0) +
              (if (remove_worker_from_vector st.blocked_workers w).1 then 1 else 0) : Nat) ≤ 1
          then some { st with
            available_workers := (remove_worker_from_vector st.available_workers w).2,
            executing_workers := (remove_worker_from_vector st.executing_workers w).2,
            blocked_workers := (remove_worker_from_vector st.blocked_workers w).2 }
          else none := rfl
      rw [heq] at hsome
      split_ifs at hsome
      all_goals first
        | exact Option.noConfusion hsome
        | (injection hsome with hsome
           subst hsome
           exact remove_worker_keeps_disjoint st w hinv)
    · have heq : handle_worker_removed st w aid = none := by
        unfold handle_worker_removed
        rw [if_neg hnil]
      rw [heq] at hsome
      exact Option.noConfusion hsome

/-- C6 witness: each handler applied at a concrete disjoint state yields a
disjoint state. -/
theorem worker_lists_disjoint_preserved_witness :
    workers_disjoint (dispatch_tasks
      { st_c10 with
        executing_workers := (remove_worker_from_vector st_c10.executing_workers 4).2,
        available_workers := st_c10.available_workers ++ [4] }) ∧
    workers_disjoint (dispatch_tasks
      { st_c10 with executing_workers := [], blocked_workers := [4] }) ∧
    workers_disjoint { st_c10 with blocked_workers := [], executing_workers := [4] } ∧
    workers_disjoint { st_c10 with available_workers := [], executing_workers := [], blocked_workers := [] } ∧
    workers_disjoint (dispatch_tasks st_c10) := by
  have hd : workers_disjoint st_c10 := by unfold workers_disjoint; decide
  refine ⟨?_, ?_, ?_, ?_, worker_lists_disjoint_preserved.2.2.2.2 st_c10 hd⟩
  · exact worker_lists_disjoint_preserved.1 st_c10 4 false _ hd (by decide) (by decide) rfl
  · exact worker_lists_disjoint_preserved.2.1 st_c10 4 _ hd rfl
  · exact worker_lists_disjoint_preserved.2.2.1
      { st_c10 with blocked_workers := [4], executing_workers := [] } 4 _
      (by unfold workers_disjoint; decide) rfl
  · exact worker_lists_disjoint_preserved.2.2.2.1 st_c10 4 NIL_ACTOR_ID _ hd rfl

/-- A demand that exceeds the static capacity in some component also fails
the dynamic-fit test, because dynamic resources never exceed static ones. -/
theorem not_satisfied_of_exceeds :
    ∀ (req dyn stat : List Int), dyn.length = stat.length →
      (∀ p ∈ dyn.zip stat, p.1 ≤ p.2) → exceeds_cap req stat = true →
      task_satisfied req dyn = false := by
  intro req
  induction req with
  | nil => intro dyn stat _ _ hex; simp [exceeds_cap] at hex
  | cons r rs ih =>
    intro dyn stat hlen hle hex
    cases stat with
    | nil => simp [exceeds_cap] at hex
    | cons s ss =>
      cases dyn with
      | nil => simp at hlen
      | cons d ds =>
        have hds : d ≤ s := hle (d, s) (by simp)
        simp only [exceeds_cap, List.zip_cons_cons, List.any_cons, Bool.or_eq_true,
          decide_eq_true_eq] at hex
        rcases hex with h | h
        · have hdr : ¬ (r ≤ d) := by omega
          simp [task_satisfied, hdr]
        · have hlen2 : ds.length = ss.length := by simpa using hlen
          have hle2 : ∀ p ∈ ds.zip ss, p.1 ≤ p.2 :=
            fun p hp => hle p (by simp [hp])
          have := ih ds ss hlen2 hle2 (by simpa [exceeds_cap] using h)
          simp only [task_satisfied, List.zip_cons_cons, List.all_cons] at this ⊢
          simp [task_satisfied] at this
          simp [this]

/-- A demand that fits the dynamic resources does not exceed the static
capacity in any component the two vectors share. -/
theorem satisfied_not_exceeds :
    ∀ (req dyn stat : List Int), dyn.length = stat.length →
      (∀ p ∈ dyn.zip stat, p.1 ≤ p.2) → task_satisfied req dyn = true →
      exceeds_cap req stat = false := by
  intro req
  induction req with
  | nil => intro dyn stat _ _ _; simp [exceeds_cap]
  | cons r rs ih =>
    intro dyn stat hlen hle hsat
    cases stat with
    | nil => simp [exceeds_cap]
    | cons s ss =>
      cases dyn with
      | nil => simp at hlen
      | cons d ds =>
        have hds : d ≤ s := hle (d, s) (by simp)
        simp only [task_satisfied, List.zip_cons_cons, List.all_cons, Bool.and_eq_true,
          decide_eq_true_eq] at hsat
        have hlen2 : ds.length = ss.length := by simpa using hlen
        have hle2 : ∀ p ∈ ds.zip ss, p.1 ≤ p.2 := fun p hp => hle p (by simp [hp])
        have htail := ih ds ss hlen2 hle2 hsat.2
        have hhead : ¬ (s < r) := by
          have := hsat.1
          omega
        simp only [exceeds_cap, List.zip_cons_cons, List.any_cons, Bool.or_eq_false_iff,
          decide_eq_false_iff_not]
        exact ⟨hhead, by simpa [exceeds_cap] using htail⟩

/-- Debiting a fitting, nonnegative demand keeps the dynamic vector at full
length and below the static capacity. -/
theorem vec_le_debit :
    ∀ (dyn req stat : List Int), dyn.length = stat.length →
      (∀ p ∈ dyn.zip stat, p.1 ≤ p.2) → req.length = dyn.length →
      (∀ r ∈ req, 0 ≤ r) →
      (List.zipWith (fun d r => d - r) dyn req).length = stat.length ∧
      (∀ p ∈ (List.zipWith (fun d r => d - r) dyn req).zip stat, p.1 ≤ p.2) := by
  intro dyn
  induction dyn with
  | nil => intro req stat hlen _ _ _; simpa using hlen
  | cons d ds ih =>
    intro req stat hlen hle hreq hnn
    cases req with
    | nil => simp at hreq
    | cons r rs =>
      cases stat with
      | nil => simp at hlen
      | cons s ss =>
        have hds : d ≤ s := hle (d, s) (by simp)
        have hr : (0 : Int) ≤ r := hnn r (by simp)
        have hlen2 : ds.length = ss.length := by simpa using hlen
        have hle2 : ∀ p ∈ ds.zip ss, p.1 ≤ p.2 := fun p hp => hle p (by simp [hp])
        have hreq2 : rs.length = ds.length := by simpa using hreq
        have hnn2 : ∀ x ∈ rs, (0 : Int) ≤ x := fun x hx => hnn x (by simp [hx])
        obtain ⟨ih1, ih2⟩ := ih rs ss hlen2 hle2 hreq2 hnn2
        refine ⟨by simpa using ih1, ?_⟩
        intro p hp
        simp only [List.zipWith_cons_cons, List.zip_cons_cons, List.mem_cons] at hp
        rcases hp with rfl | hp
        · simp only
          omega
        · exact ih2 p hp

/-- A dispatch-queue task whose demand exceeds the static capacity survives
the dispatch loop in the queue, and everything the loop hands to a worker
fits the static capacity. -/
theorem dispatch_go_keeps_unfit :
    ∀ (rest : List TaskQueueEntry) (st : State) (kept : List TaskQueueEntry)
      (t : TaskQueueEntry),
      st.dynamic_resources.length = st.static_resources.length →
      (∀ p ∈ st.dynamic_resources.zip st.static_resources, p.1 ≤ p.2) →
      (∀ e ∈ rest, (∀ r ∈ e.spec.required_resources, 0 ≤ r) ∧
        e.spec.required_resources.length = st.static_resources.length) →
      t ∈ kept ++ rest →
      exceeds_cap t.spec.required_resources st.static_resources = true →
      t ∈ (dispatch_tasks_go st kept rest).dispatch_task_queue ∧
      ∃ L, (dispatch_tasks_go st kept rest).assigned_log = st.assigned_log ++ L ∧
        ∀ p ∈ L, exceeds_cap p.1.required_resources st.static_resources = false := by
  intro rest
  induction rest with
  | nil =>
    intro st kept t _ _ _ hmem _
    exact ⟨by simpa [dispatch_tasks_go] using hmem, [], by simp [dispatch_tasks_go], by simp⟩
  | cons task rest ih =>
    intro st kept t hlen hle hwf hmem hex
    by_cases h1 : st.available_workers = []
    · refine ⟨?_, [], ?_, by simp⟩ <;>
        simp only [dispatch_tasks_go, if_pos h1] <;>
        by_cases h2 : st.child_pids = 0 <;>
        simp [h2, start_worker] <;> simpa using hmem
    · by_cases h2 : (st.dynamic_resources.any fun r => decide (0 < r)) = true
      · by_cases h3 : task_satisfied task.spec.required_resources st.dynamic_resources = true
        · have hstep : dispatch_tasks_go st kept (task :: rest) =
              dispatch_tasks_go (assign_step st task) kept rest := by
            simp [dispatch_tasks_go, if_neg h1, h2, h3]
          have htaskwf := hwf task (by simp)
          have hnex : exceeds_cap task.spec.required_resources st.static_resources = false :=
            satisfied_not_exceeds _ _ _ hlen hle h3
          have htne : t ≠ task := by
            intro hh
            rw [hh] at hex
            rw [hex] at hnex
            exact Bool.noConfusion hnex
          have hmem2 : t ∈ kept ++ rest := by
            rcases List.mem_append.mp hmem with h | h
            · exact List.mem_append.mpr (Or.inl h)
            · rcases List.mem_cons.mp h with h | h
              · exact absurd h htne
              · exact List.mem_append.mpr (Or.inr h)
          have hstat : (assign_step st task).static_resources = st.static_resources := rfl
          obtain ⟨hd1, hd2⟩ := vec_le_debit st.dynamic_resources
            task.spec.required_resources st.static_resources hlen hle
            (htaskwf.2.trans hlen.symm) htaskwf.1
          have hdyn : (assign_step st task).dynamic_resources =
              List.zipWith (fun d r => d - r) st.dynamic_resources
                task.spec.required_resources := rfl
          obtain ⟨hin, L, hlog, hLex⟩ := ih (assign_step st task) kept t
            (by rw [hdyn, hstat]; exact hd1)
            (by rw [hdyn, hstat]; exact hd2)
            (by
              intro e he
              have := hwf e (by simp [he])
              rw [hstat]
              exact this)
            hmem2 (by rw [hstat]; exact hex)
          refine ⟨by rw [hstep]; exact hin, (task.spec, some (st.available_workers.getLastD 0)) :: L, ?_, ?_⟩
          · rw [hstep, hlog]
            have : (assign_step st task).assigned_log =
                st.assigned_log ++ [(task.spec, some (st.available_workers.getLastD 0))] := rfl
            rw [this, List.append_assoc]
            rfl
          · intro p hp
            rcases List.mem_cons.mp hp with rfl | hp
            · exact hnex
            · have := hLex p hp
              rw [hstat] at this
              exact this
        · have hstep : dispatch_tasks_go st kept (task :: rest) =
              dispatch_tasks_go st (kept ++ [task]) rest := by
            simp [dispatch_tasks_go, if_neg h1, h2, h3]
          have hmem2 : t ∈ (kept ++ [task]) ++ rest := by
            rw [List.append_assoc]
            simpa using hmem
          obtain ⟨hin, L, hlog, hLex⟩ := ih st (kept ++ [task]) t hlen hle
            (fun e he => hwf e (by simp [he])) hmem2 hex
          exact ⟨by rw [hstep]; exact hin, L, by rw [hstep]; exact hlog, hLex⟩
      · refine ⟨?_, [], ?_, by simp⟩ <;>
          simp [dispatch_tasks_go, if_neg h1, h2] <;> simpa using hmem

/-- find_task returns an element of the list. -/
theorem find_task_some_mem :
    ∀ (l : List TaskQueueEntry) (c : Nat) (e : TaskQueueEntry),
      find_task l c = some e → e ∈ l := by
  intro l
  induction l with
  | nil => intro c e h; simp [find_task] at h
  | cons x xs ih =>
    intro c e h
    by_cases hx : x.spec.task_id = c
    · rw [find_task, if_pos hx, Option.some_inj] at h
      simp [h.symm]
    · rw [find_task, if_neg hx] at h
      simp [ih c e h]

/-- erase_task only removes elements. -/
theorem erase_task_subset :
    ∀ (l : List TaskQueueEntry) (c : Nat) (x : TaskQueueEntry),
      x ∈ erase_task l c → x ∈ l := by
  intro l
  induction l with
  | nil => intro c x h; simp [erase_task] at h
  | cons e es ih =>
    intro c x h
    by_cases he : e.spec.task_id = c
    · rw [erase_task, if_pos he] at h
      simp [h]
    · rw [erase_task, if_neg he] at h
      rcases List.mem_cons.mp h with rfl | h
      · simp
      · simp [ih c x h]

/-- The dependent-cursor fold of handle_object_available only appends
waiting-queue entries to the dispatch queue and touches nothing else that
the dispatch loop reads. -/
theorem move_runnable_foldl_appends :
    ∀ (cs : List Nat) (s : State),
      ∃ m, (cs.foldl move_runnable s).dispatch_task_queue = s.dispatch_task_queue ++ m ∧
        (∀ e ∈ m, e ∈ s.waiting_task_queue) ∧
        (cs.foldl move_runnable s).dynamic_resources = s.dynamic_resources ∧
        (cs.foldl move_runnable s).static_resources = s.static_resources := by
  intro cs
  induction cs with
  | nil => intro s; exact ⟨[], by simp, by simp, rfl, rfl⟩
  | cons c cs ih =>
    intro s
    rw [List.foldl_cons]
    cases hf : find_task s.waiting_task_queue c with
    | none =>
      have hstep : move_runnable s c = s := by
        unfold move_runnable
        rw [hf]
      rw [hstep]
      exact ih s
    | some e =>
      by_cases hcr : can_run s e.spec = true
      · have hstep : move_runnable s c =
            { s with
              dispatch_task_queue := s.dispatch_task_queue ++ [e],
              waiting_task_queue := erase_task s.waiting_task_queue c } := by
          simp [move_runnable, hf, hcr]
        rw [hstep]
        obtain ⟨m, hm1, hm2, hm3, hm4⟩ := ih
          { s with
            dispatch_task_queue := s.dispatch_task_queue ++ [e],
            waiting_task_queue := erase_task s.waiting_task_queue c }
        refine ⟨e :: m, ?_, ?_, hm3, hm4⟩
        · rw [hm1]
          simp
        · intro x hx
          rcases List.mem_cons.mp hx with rfl | hx
          · exact find_task_some_mem _ _ _ hf
          · exact erase_task_subset _ _ _ (hm2 x hx)
      · have hstep : move_runnable s c = s := by
          simp [move_runnable, hf, hcr]
        rw [hstep]
        exact ih s

/-- C9: a dispatch-queue task whose demand exceeds the static capacity in
some component is never assigned by dispatch_tasks (it survives in the
queue and every logged hand-off fits the static capacity), stays in the
queue across handle_worker_available and handle_object_available (which only
append or redispatch), and is removed by handle_driver_removed only for its
own driver.  Hypotheses: dynamic never exceeds static, and queued demands
are nonnegative full-length vectors. -/
theorem unfit_task_never_dispatched :
    (∀ (st : State) (t : TaskQueueEntry), resources_wf st →
      tasks_wf st st.dispatch_task_queue →
      t ∈ st.dispatch_task_queue →
      exceeds_cap t.spec.required_resources st.static_resources = true →
      t ∈ (dispatch_tasks st).dispatch_task_queue ∧
      ∃ L, (dispatch_tasks st).assigned_log = st.assigned_log ++ L ∧
        ∀ p ∈ L, exceeds_cap p.1.required_resources st.static_resources = false) ∧
    (∀ st (t : TaskQueueEntry) d, t ∈ st.dispatch_task_queue → t.spec.driver_id ≠ d →
      t ∈ (handle_driver_removed st d).dispatch_task_queue) ∧
    (∀ st (t : TaskQueueEntry) O st', resources_wf st →
      tasks_wf st st.dispatch_task_queue → tasks_wf st st.waiting_task_queue →
      t ∈ st.dispatch_task_queue →
      exceeds_cap t.spec.required_resources st.static_resources = true →
      handle_object_available st O = some st' → t ∈ st'.dispatch_task_queue) ∧
    (∀ st (t : TaskQueueEntry) w st', resources_wf st →
      tasks_wf st st.dispatch_task_queue →
      t ∈ st.dispatch_task_queue →
      exceeds_cap t.spec.required_resources st.static_resources = true →
      handle_worker_available st w false = some st' → t ∈ st'.dispatch_task_queue) := by
  have hcore : ∀ (st : State) (t : TaskQueueEntry), resources_wf st →
      tasks_wf st st.dispatch_task_queue →
      t ∈ st.dispatch_task_queue →
      exceeds_cap t.spec.required_resources st.static_resources = true →
      t ∈ (dispatch_tasks st).dispatch_task_queue ∧
      ∃ L, (dispatch_tasks st).assigned_log = st.assigned_log ++ L ∧
        ∀ p ∈ L, exceeds_cap p.1.required_resources st.static_resources = false := by
    intro st t hr hw hmem hex
    exact dispatch_go_keeps_unfit st.dispatch_task_queue st [] t hr.1 hr.2 hw
      (by simpa using hmem) hex
  refine ⟨hcore, ?_, ?_, ?_⟩
  · intro st t d hmem hne
    unfold handle_driver_removed
    simp only
    exact List.mem_filter.mpr ⟨hmem, by simp [hne]⟩
  · intro st t O st' hr hwd hww hmem hex hsome
    cases hro : alookup st.remote_objects O with
    | none =>
      have heq : handle_object_available st O =
          if (alookup st.local_objects O).isSome = true then none
          else some { st with
            remote_objects := aerase st.remote_objects O,
            local_objects := st.local_objects ++
              [(O, { object_id := O, dependent_tasks := [] })] } := by
        unfold handle_object_available
        rw [hro]
      rw [heq] at hsome
      split_ifs at hsome
      rw [Option.some_inj] at hsome
      subst hsome
      exact hmem
    | some e0 =>
      have heq : handle_object_available st O =
          if (alookup st.local_objects O).isSome = true then none
          else if e0.dependent_tasks = [] then
            some { st with
              remote_objects := aerase st.remote_objects O,
              local_objects := st.local_objects ++ [(O, e0)] }
          else some (dispatch_tasks (e0.dependent_tasks.foldl move_runnable
            { st with
              remote_objects := aerase st.remote_objects O,
              local_objects := st.local_objects ++ [(O, e0)] })) := by
        unfold handle_object_available
        rw [hro]
      rw [heq] at hsome
      split_ifs at hsome
      · rw [Option.some_inj] at hsome
        subst hsome
        exact hmem
      · rw [Option.some_inj] at hsome
        subst hsome
        obtain ⟨m, hm1, hm2, hm3, hm4⟩ := move_runnable_foldl_appends e0.dependent_tasks
          { st with
            remote_objects := aerase st.remote_objects O,
            local_objects := st.local_objects ++ [(O, e0)] }
        set sf := e0.dependent_tasks.foldl move_runnable
          { st with
            remote_objects := aerase st.remote_objects O,
            local_objects := st.local_objects ++ [(O, e0)] } with hsf
        have hfin := dispatch_go_keeps_unfit sf.dispatch_task_queue sf [] t
          (by rw [hm3, hm4]; exact hr.1)
          (by rw [hm3, hm4]; exact hr.2)
          (by
            intro e he
            rw [hm1] at he
            rw [hm4]
            rcases List.mem_append.mp he with h | h
            · exact hwd e h
            · exact hww e (hm2 e h))
          (by
            rw [hm1]
            simp only [List.nil_append]
            exact List.mem_append.mpr (Or.inl hmem))
          (by rw [hm4]; exact hex)
        exact hfin.1
  · intro st t w st' hr hwd hmem hex hsome
    have heq : handle_worker_available st w false = some (dispatch_tasks
        { st with
          executing_workers := (remove_worker_from_vector st.executing_workers w).2,
          available_workers := st.available_workers ++ [w] }) := rfl
    rw [heq, Option.some_inj] at hsome
    subst hsome
    exact (dispatch_go_keeps_unfit st.dispatch_task_queue
      { st with
        executing_workers := (remove_worker_from_vector st.executing_workers w).2,
        available_workers := st.available_workers ++ [w] } [] t hr.1 hr.2 hwd
      (by simpa using hmem) hex).1

/-- C9 witness: the over-capacity task tq_c2a survives dispatch, a foreign
driver removal, an object arrival and a worker arrival at st_c9. -/
theorem unfit_task_never_dispatched_witness :
    tq_c2a ∈ (dispatch_tasks st_c9).dispatch_task_queue ∧
    tq_c2a ∈ (handle_driver_removed st_c9 1).dispatch_task_queue ∧
    (∃ st', handle_object_available st_c9 9 = some st' ∧
      tq_c2a ∈ st'.dispatch_task_queue) ∧
    (∃ st', handle_worker_available st_c9 6 false = some st' ∧
      tq_c2a ∈ st'.dispatch_task_queue) := by
  have hr : resources_wf st_c9 := by unfold resources_wf; refine ⟨by decide, by decide⟩
  have hwd : tasks_wf st_c9 st_c9.dispatch_task_queue := by
    unfold tasks_wf
    decide
  have hww : tasks_wf st_c9 st_c9.waiting_task_queue := by
    unfold tasks_wf
    decide
  refine ⟨?_, ?_, ?_, ?_⟩
  · exact (unfit_task_never_dispatched.1 st_c9 tq_c2a hr hwd (by decide) (by decide)).1
  · exact unfit_task_never_dispatched.2.1 st_c9 tq_c2a 1 (by decide) (by decide)
  · have h9 : handle_object_available st_c9 9 = some { st_c9 with
        remote_objects := aerase st_c9.remote_objects 9,
        local_objects := st_c9.local_objects ++
          [(9, { object_id := 9, dependent_tasks := [] })] } := by decide
    exact ⟨_, h9, unfit_task_never_dispatched.2.2.1 st_c9 tq_c2a 9 _ hr hwd hww
      (by decide) (by decide) h9⟩
  · have h6 : handle_worker_available st_c9 6 false = some (dispatch_tasks
        { st_c9 with
          executing_workers := (remove_worker_from_vector st_c9.executing_workers 6).2,
          available_workers := st_c9.available_workers ++ [6] }) := rfl
    exact ⟨_, h6, unfit_task_never_dispatched.2.2.2 st_c9 tq_c2a 6 _ hr hwd
      (by decide) (by decide) h6⟩

/-- Filtering cannot make an absent cursor target appear. -/
theorem find_task_filter_none (l : List TaskQueueEntry) (q : TaskQueueEntry → Bool)
    (c : Nat) (h : find_task l c = none) : find_task (l.filter q) c = none := by
  induction l with
  | nil => simp [find_task]
  | cons e es ih =>
    by_cases he : e.spec.task_id = c
    · rw [find_task, if_pos he] at h
      exact Option.noConfusion h
    · rw [find_task, if_neg he] at h
      by_cases hq : q e = true
      · rw [List.filter_cons_of_pos hq, find_task, if_neg he]
        exact ih h
      · rw [List.filter_cons_of_neg (by simp [hq])]
        exact ih h

/-- A cursor target that survives the filter is still the first match. -/
theorem find_task_filter_some (l : List TaskQueueEntry) (q : TaskQueueEntry → Bool)
    (c : Nat) (e : TaskQueueEntry) (h : find_task l c = some e) (hq : q e = true) :
    find_task (l.filter q) c = some e := by
  induction l with
  | nil => simp [find_task] at h
  | cons x xs ih =>
    by_cases hx : x.spec.task_id = c
    · rw [find_task, if_pos hx, Option.some_inj] at h
      subst h
      rw [List.filter_cons_of_pos hq, find_task, if_pos hx]
    · rw [find_task, if_neg hx] at h
      by_cases hqx : q x = true
      · rw [List.filter_cons_of_pos hqx, find_task, if_neg hx]
        exact ih h
      · rw [List.filter_cons_of_neg (by simp [hqx])]
        exact ih h

/-- Mapping a function that fixes every element of a list is the identity. -/
theorem map_id_of {α : Type} (f : α → α) :
    ∀ (l : List α), (∀ a ∈ l, f a = a) → l.map f = l := by
  intro l
  induction l with
  | nil => intro _; rfl
  | cons x xs ih =>
    intro h
    rw [List.map_cons, h x (by simp), ih (fun a ha => h a (by simp [ha]))]

/-- A cursor whose target is not a task of the removed driver still does not
point at one after the driver's waiting tasks are filtered out: its target
entry survives the filter and stays the first match. -/
theorem cursor_driver_is_stable (wq : List TaskQueueEntry) (c : Nat) (d : DriverID)
    (h : cursor_driver_is wq c d = false) :
    cursor_driver_is (wq.filter (fun e => !(e.spec.driver_id == d))) c d = false := by
  unfold cursor_driver_is at *
  cases hf : find_task wq c with
  | none => rw [find_task_filter_none _ _ _ hf]
  | some e =>
    have h2 : (e.spec.driver_id == d) = false := by
      rw [hf] at h
      exact h
    have he : (!(e.spec.driver_id == d)) = true := by rw [h2]; rfl
    rw [find_task_filter_some _ _ _ _ hf he]
    exact h2

/-- C8: handle_driver_removed is idempotent - a second removal of the same
driver changes none of waiting, dispatch, local_objects, remote_objects.
After the first call no queued task of the driver remains, every surviving
remote-object cursor still points at a surviving task of another driver, and
every surviving ObjectEntry still has a nonempty dependent list, so the
second call's purge and filters are the identity. -/
theorem handle_driver_removed_idempotent (st : State) (d : DriverID) :
    (handle_driver_removed (handle_driver_removed st d) d).waiting_task_queue =
      (handle_driver_removed st d).waiting_task_queue ∧
    (handle_driver_removed (handle_driver_removed st d) d).dispatch_task_queue =
      (handle_driver_removed st d).dispatch_task_queue ∧
    (handle_driver_removed (handle_driver_removed st d) d).local_objects =
      (handle_driver_removed st d).local_objects ∧
    (handle_driver_removed (handle_driver_removed st d) d).remote_objects =
      (handle_driver_removed st d).remote_objects := by
  refine ⟨?_, ?_, rfl, ?_⟩
  · apply List.filter_eq_self.mpr
    intro a ha
    have ha2 : a ∈ st.waiting_task_queue.filter (fun e => !(e.spec.driver_id == d)) := ha
    exact (List.mem_filter.mp ha2).2
  · apply List.filter_eq_self.mpr
    intro a ha
    have ha2 : a ∈ st.dispatch_task_queue.filter (fun e => !(e.spec.driver_id == d)) := ha
    exact (List.mem_filter.mp ha2).2
  · have hmain : ∀ q ∈ (handle_driver_removed st d).remote_objects,
        ((q.1, { object_id := q.2.object_id, dependent_tasks := q.2.dependent_tasks.filter (fun c => !(cursor_driver_is (handle_driver_removed st d).waiting_task_queue c d)) }) : ObjectID × ObjectEntry) = q := by
      intro q hq
      have hq2 := List.mem_filter.mp hq
      obtain ⟨q0, _hq0mem, hq0⟩ := List.mem_map.mp hq2.1
      subst hq0
      have hdeps : (q0.2.dependent_tasks.filter (fun c2 => !(cursor_driver_is st.waiting_task_queue c2 d))).filter (fun c => !(cursor_driver_is (handle_driver_removed st d).waiting_task_queue c d)) = q0.2.dependent_tasks.filter (fun c2 => !(cursor_driver_is st.waiting_task_queue c2 d)) := by
        apply List.filter_eq_self.mpr
        intro c hc
        have hpred := List.of_mem_filter hc
        have hfalse : cursor_driver_is st.waiting_task_queue c d = false := by
          simpa using hpred
        have hstable := cursor_driver_is_stable st.waiting_task_queue c d hfalse
        have hwq : (handle_driver_removed st d).waiting_task_queue =
            st.waiting_task_queue.filter (fun e => !(e.spec.driver_id == d)) := rfl
        rw [hwq, hstable]
        rfl
      show ((q0.1, { object_id := q0.2.object_id, dependent_tasks := (q0.2.dependent_tasks.filter (fun c2 => !(cursor_driver_is st.waiting_task_queue c2 d))).filter (fun c => !(cursor_driver_is (handle_driver_removed st d).waiting_task_queue c d)) }) : ObjectID × ObjectEntry) = _
      rw [hdeps]
    have hmap : (handle_driver_removed st d).remote_objects.map (fun p => ((p.1, { object_id := p.2.object_id, dependent_tasks := p.2.dependent_tasks.filter (fun c => !(cursor_driver_is (handle_driver_removed st d).waiting_task_queue c d)) }) : ObjectID × ObjectEntry)) = (handle_driver_removed st d).remote_objects :=
      map_id_of _ _ hmain
    show ((handle_driver_removed st d).remote_objects.map (fun p => ((p.1, { object_id := p.2.object_id, dependent_tasks := p.2.dependent_tasks.filter (fun c => !(cursor_driver_is (handle_driver_removed st d).waiting_task_queue c d)) }) : ObjectID × ObjectEntry))).filter (fun p => !(p.2.dependent_tasks.isEmpty)) = (handle_driver_removed st d).remote_objects
    rw [hmap]
    apply List.filter_eq_self.mpr
    intro q hq
    have hq2 := List.mem_filter.mp hq
    exact hq2.2

/-- Reading an appended list right at the end of the prefix yields the head
of the suffix. -/
theorem get?_append_len {α : Type} :
    ∀ (a b : List α), (a ++ b).get? a.length = b.get? 0 := by
  intro a
  induction a with
  | nil => intro b; rfl
  | cons x xs ih => intro b; simpa using ih b

/-- add_task_to_actor_queue only modifies local_actor_infos. -/
theorem add_task_to_actor_queue_shape :
    ∀ (st : State) (spec : TaskSpec) (size : Int) (b : Bool) (st1 : State),
      add_task_to_actor_queue st spec size b = some st1 →
      st1 = { st with local_actor_infos := st1.local_actor_infos } := by
  intro st spec size b st1 h
  unfold add_task_to_actor_queue at h
  cases hmid : (if alookup st.local_actor_infos spec.actor_id = none
      then create_actor st spec.actor_id none else some st) with
  | none =>
    rw [hmid] at h
    exact Option.noConfusion h
  | some stMid =>
    rw [hmid] at h
    have hMid : stMid = { st with local_actor_infos := stMid.local_actor_infos } := by
      by_cases hl : alookup st.local_actor_infos spec.actor_id = none
      · rw [if_pos hl] at hmid
        unfold create_actor at hmid
        rw [if_pos hl] at hmid
        injection hmid with hmid
        subst hmid
        rfl
      · rw [if_neg hl] at hmid
        injection hmid with hmid
        subst hmid
        rfl
    have h2 : (match alookup stMid.local_actor_infos spec.actor_id with
        | none => none
        | some entry =>
          if spec.actor_counter ≥ entry.task_counter then
            some { stMid with
              local_actor_infos := aupdate stMid.local_actor_infos spec.actor_id
                { entry with
                  task_queue := insert_by_counter spec.actor_counter
                    { spec := spec, task_spec_size := size } entry.task_queue } }
          else none) = some st1 := h
    have hTail : st1 = { stMid with local_actor_infos := st1.local_actor_infos } := by
      repeat' split at h2
      all_goals first
        | exact Option.noConfusion h2
        | (injection h2 with h2
           subst h2
           rfl)
    conv_lhs => rw [hTail]
    rw [hMid]

/-- dispatch_actor_task only modifies local_actor_infos, dynamic_resources
and the ghost assigned_log. -/
theorem dispatch_actor_task_shape :
    ∀ (st : State) (a : ActorID) (p : State × Bool),
      dispatch_actor_task st a = some p →
      p.1 = { st with
        local_actor_infos := p.1.local_actor_infos,
        dynamic_resources := p.1.dynamic_resources,
        assigned_log := p.1.assigned_log } := by
  intro st a p h
  unfold dispatch_actor_task assign_task_to_worker at h
  repeat' split at h
  all_goals first
    | exact Option.noConfusion h
    | (injection h with h
       subst h
       rfl)

/-- The effect of handle_actor_task_submitted on everything the notification
replay loop observes: the actor mapping, self id, the two cached arrays (the
spec and its size are re-appended exactly when the actor is still unknown)
and the ghost submitted_log. -/
theorem handle_actor_task_submitted_effect :
    ∀ (st : State) (spec : TaskSpec) (size : Int) (st1 : State),
      handle_actor_task_submitted st spec size = some st1 →
      st1.actor_mapping = st.actor_mapping ∧
      st1.self_id = st.self_id ∧
      st1.submitted_log = st.submitted_log ++ [spec] ∧
      st1.cached_submitted_actor_tasks = st.cached_submitted_actor_tasks ++
        (if (alookup st.actor_mapping spec.actor_id).isNone then [spec] else []) ∧
      st1.cached_submitted_actor_task_sizes = st.cached_submitted_actor_task_sizes ++
        (if (alookup st.actor_mapping spec.actor_id).isNone then [size] else []) := by
  intro st spec size st1 h
  by_cases hnil : spec.actor_id = NIL_ACTOR_ID
  · have heq : handle_actor_task_submitted st spec size = none := by
      unfold handle_actor_task_submitted
      rw [if_pos hnil]
    rw [heq] at h
    exact Option.noConfusion h
  · cases hm : alookup st.actor_mapping spec.actor_id with
    | none =>
      have heq : handle_actor_task_submitted st spec size = some { st with
          submitted_log := st.submitted_log ++ [spec],
          cached_submitted_actor_tasks := st.cached_submitted_actor_tasks ++ [spec],
          cached_submitted_actor_task_sizes :=
            st.cached_submitted_actor_task_sizes ++ [size] } := by
        unfold handle_actor_task_submitted
        rw [if_neg hnil, hm]
      rw [heq, Option.some_inj] at h
      subst h
      simp [hm]
    | some lsid =>
      have hne : (alookup st.actor_mapping spec.actor_id).isNone = false := by
        rw [hm]
        rfl
      by_cases hself : lsid = st.self_id
      · cases hadd : add_task_to_actor_queue
            { st with submitted_log := st.submitted_log ++ [spec] } spec size false with
        | none =>
          have heq : handle_actor_task_submitted st spec size = none := by
            unfold handle_actor_task_submitted
            simp only [if_neg hnil, hm, if_pos hself, hadd]
          rw [heq] at h
          exact Option.noConfusion h
        | some stA =>
          cases hdat : dispatch_actor_task stA spec.actor_id with
          | none =>
            have heq : handle_actor_task_submitted st spec size = none := by
              unfold handle_actor_task_submitted
              simp only [if_neg hnil, hm, if_pos hself, hadd, hdat]
            rw [heq] at h
            exact Option.noConfusion h
          | some p =>
            have heq : handle_actor_task_submitted st spec size = some p.1 := by
              unfold handle_actor_task_submitted
              simp only [if_neg hnil, hm, if_pos hself, hadd, hdat]
            rw [heq, Option.some_inj] at h
            subst h
            have hA := add_task_to_actor_queue_shape _ _ _ _ _ hadd
            have hP := dispatch_actor_task_shape _ _ _ hdat
            rw [hP, hA]
            simp [hne]
      · cases hdb : st.db with
        | false =>
          have heq : handle_actor_task_submitted st spec size = none := by
            unfold handle_actor_task_submitted give_task_to_local_scheduler
            simp only [if_neg hnil, hm, if_neg hself, hdb, Bool.false_eq_true, if_false]
          rw [heq] at h
          exact Option.noConfusion h
        | true =>
          have heq : handle_actor_task_submitted st spec size = some
              { st with submitted_log := st.submitted_log ++ [spec] } := by
            unfold handle_actor_task_submitted give_task_to_local_scheduler
            simp only [if_neg hnil, hm, if_neg hself, hdb, if_true]
          rw [heq, Option.some_inj] at h
          subst h
          simp [hne]

/-- The notification loop resubmits exactly the pending window, in order:
the cached arrays keep their contents, followed by one re-append per pending
spec whose actor is still unknown; the mapping never changes; every pending
spec is pushed to the ghost submitted_log in order. -/
theorem notif_loop_spec :
    ∀ (pending : List TaskSpec) (pendSizes : List Int) (st : State)
      (done extra : List TaskSpec) (doneSizes : List Int) (extraSizes : List Int)
      (st' : State),
      st.cached_submitted_actor_tasks = done ++ pending ++ extra →
      st.cached_submitted_actor_task_sizes = doneSizes ++ pendSizes ++ extraSizes →
      done.length = doneSizes.length →
      pending.length = pendSizes.length →
      notif_loop st done.length pending.length = some st' →
      st'.actor_mapping = st.actor_mapping ∧
      st'.cached_submitted_actor_tasks = done ++ pending ++ extra ++
        pending.filter (fun t => (alookup st.actor_mapping t.actor_id).isNone) ∧
      st'.cached_submitted_actor_task_sizes = doneSizes ++ pendSizes ++ extraSizes ++
        ((pending.zip pendSizes).filter
          (fun p => (alookup st.actor_mapping p.1.actor_id).isNone)).map Prod.snd ∧
      st'.submitted_log = st.submitted_log ++ pending := by
  intro pending
  induction pending with
  | nil =>
    intro pendSizes st done extra doneSizes extraSizes st' hc hs _hdl hpl hloop
    have hps : pendSizes = [] := List.eq_nil_of_length_eq_zero hpl.symm
    subst hps
    have hst : st' = st := by
      simp only [List.length_nil, notif_loop, Option.some_inj] at hloop
      exact hloop.symm
    subst hst
    simp [hc, hs]
  | cons p ps ih =>
    intro pendSizes st done extra doneSizes extraSizes st' hc hs hdl hpl hloop
    cases pendSizes with
    | nil => simp at hpl
    | cons q qs =>
      have hget : st.cached_submitted_actor_tasks.get? done.length = some p := by
        rw [hc, List.append_assoc]
        rw [get?_append_len]
        rfl
      have hgets : st.cached_submitted_actor_task_sizes.get? done.length = some q := by
        rw [hs, List.append_assoc, hdl]
        rw [get?_append_len]
        rfl
      have hstep : notif_loop st done.length (ps.length + 1) =
          match handle_actor_task_submitted st p q with
          | some stA => notif_loop stA (done.length + 1) ps.length
          | none => none := by
        simp only [notif_loop]
        rw [hget, hgets]
      rw [List.length_cons] at hloop
      rw [hstep] at hloop
      cases hsub : handle_actor_task_submitted st p q with
      | none =>
        rw [hsub] at hloop
        exact Option.noConfusion hloop
      | some stA =>
        rw [hsub] at hloop
        obtain ⟨hmapA, hselfA, hlogA, hcA, hsA⟩ :=
          handle_actor_task_submitted_effect st p q stA hsub
        have hcA2 : stA.cached_submitted_actor_tasks = (done ++ [p]) ++ ps ++
            (extra ++ (if (alookup st.actor_mapping p.actor_id).isNone
              then [p] else [])) := by
          rw [hcA, hc]
          simp [List.append_assoc]
        have hsA2 : stA.cached_submitted_actor_task_sizes = (doneSizes ++ [q]) ++ qs ++
            (extraSizes ++ (if (alookup st.actor_mapping p.actor_id).isNone
              then [q] else [])) := by
          rw [hsA, hs]
          simp [List.append_assoc]
        have hdl2 : (done ++ [p]).length = (doneSizes ++ [q]).length := by
          simp [hdl]
        have hpl2 : ps.length = qs.length := by simpa using hpl
        have hidx : (done ++ [p]).length = done.length + 1 := by simp
        have hloop2 : notif_loop stA (done ++ [p]).length ps.length = some st' := by
          rw [hidx]
          exact hloop
        obtain ⟨h1, h2, h3, h4⟩ := ih qs stA (done ++ [p])
          (extra ++ (if (alookup st.actor_mapping p.actor_id).isNone then [p] else []))
          (doneSizes ++ [q])
          (extraSizes ++ (if (alookup st.actor_mapping p.actor_id).isNone then [q] else []))
          st' hcA2 hsA2 hdl2 hpl2 hloop2
        refine ⟨h1.trans hmapA, ?_, ?_, ?_⟩
        · rw [h2, hmapA]
          by_cases hu : (alookup st.actor_mapping p.actor_id).isNone = true <;>
            simp [List.filter_cons, hu, List.append_assoc]
        · rw [h3, hmapA]
          by_cases hu : (alookup st.actor_mapping p.actor_id).isNone = true <;>
            simp [List.filter_cons, hu, List.append_assoc]
        · rw [h4, hlogA]
          simp

/-- C1: dispatch_actor_task on an actor this scheduler owns (mapping names
this node, a LocalActorInfo exists) returns false exactly when the per-actor
queue is empty, or the head counter is strictly greater than task_counter
(smaller is the asserted protocol violation and aborts), or the worker is
unavailable; otherwise it increments task_counter, hands the head task to the
actor's worker, clears worker_available, pops the head and returns true,
leaving the rest of the queue and all other state unchanged. -/
theorem dispatch_actor_task_correct :
    ∀ (st : State) (a : ActorID) (e : LocalActorInfo),
      a ≠ NIL_ACTOR_ID →
      alookup st.actor_mapping a = some st.self_id →
      alookup st.local_actor_infos a = some e →
      (e.task_queue = [] → dispatch_actor_task st a = some (st, false)) ∧
      (∀ h t, e.task_queue = h :: t →
        (h.spec.actor_counter > e.task_counter → dispatch_actor_task st a = some (st, false)) ∧
        (h.spec.actor_counter < e.task_counter → dispatch_actor_task st a = none) ∧
        (h.spec.actor_counter = e.task_counter → e.worker_available = false →
          dispatch_actor_task st a = some (st, false)) ∧
        (h.spec.actor_counter = e.task_counter → e.worker_available = true →
          ∃ st', dispatch_actor_task st a = some (st', true) ∧
            st'.local_actor_infos = aupdate st.local_actor_infos a
              ({ e with task_counter := e.task_counter + 1, worker_available := false,
                        task_queue := t }) ∧
            st'.assigned_log = st.assigned_log ++ [(h.spec, e.worker)] ∧
            st'.dynamic_resources =
              List.zipWith (fun d r => d - r) st.dynamic_resources h.spec.required_resources ∧
            st'.waiting_task_queue = st.waiting_task_queue ∧
            st'.dispatch_task_queue = st.dispatch_task_queue ∧
            st'.available_workers = st.available_workers ∧
            st'.executing_workers = st.executing_workers ∧
            st'.blocked_workers = st.blocked_workers ∧
            st'.local_objects = st.local_objects ∧
            st'.remote_objects = st.remote_objects ∧
            st'.cached_submitted_actor_tasks = st.cached_submitted_actor_tasks)) := by
  intro st a e ha hm he
  constructor
  · intro hq
    simp [dispatch_actor_task, ha, hm, he, hq]
  · intro h t hq
    refine ⟨?_, ?_, ?_, ?_⟩
    · intro hc
      simp [dispatch_actor_task, ha, hm, he, hq, ne_of_gt hc, hc]
    · intro hc
      simp [dispatch_actor_task, ha, hm, he, hq, ne_of_lt hc, lt_asymm hc]
    · intro hc hw
      simp [dispatch_actor_task, ha, hm, he, hq, hc, hw]
    · intro hc hw
      refine ⟨{ assign_task_to_worker st h.spec h.task_spec_size e.worker with
                local_actor_infos := aupdate st.local_actor_infos a
                  ({ e with task_counter := e.task_counter + 1, worker_available := false,
                            task_queue := t }) }, ?_, rfl, rfl, rfl, rfl, rfl, rfl, rfl, rfl,
                rfl, rfl, rfl⟩
      simp [dispatch_actor_task, ha, hm, he, hq, hc, hw, assign_task_to_worker]

/-- C1 witness: at st_c1 the actor's head task (counter 0) is dispatched to
worker 9 and the queue empties. -/
theorem dispatch_actor_task_correct_witness :
    ∃ st', dispatch_actor_task st_c1 2 = some (st', true) ∧
      st'.assigned_log = st_c1.assigned_log ++ [(spec_c1, some 9)] := by
  have h := (dispatch_actor_task_correct st_c1 2 info_c1 (by decide) (by decide)
    (by decide)).2 { spec := spec_c1, task_spec_size := 4 } [] rfl
  obtain ⟨st', hd, _h1, h2, _⟩ := h.2.2.2 rfl rfl
  exact ⟨st', hd, h2⟩

end LocalSchedulerAlgorithm

namespace LocalSchedulerAlgorithm

/-- C10: handle_worker_available aborts at its CHECK exactly when the worker
still has a task in progress; under the precondition it removes the worker
from executing_workers if present (the swap-removal), appends it to the tail
of available_workers, and redispatches - the some result shows the abort
branch is not reached.  Under the disjointness invariant the removal really
leaves no occurrence of the worker in executing_workers. -/
theorem handle_worker_available_precondition :
    (∀ st w, handle_worker_available st w true = none) ∧
    (∀ st w, handle_worker_available st w false =
      some (dispatch_tasks { st with
        executing_workers := (remove_worker_from_vector st.executing_workers w).2,
        available_workers := st.available_workers ++ [w] })) ∧
    (∀ st w, workers_disjoint st →
      w ∉ (remove_worker_from_vector st.executing_workers w).2) := by
  refine ⟨fun st w => rfl, fun st w => rfl, fun st w hd => ?_⟩
  apply remove_worker_not_mem
  have h := (List.nodup_iff_count_le_one.mp hd) w
  simp only [List.count_append] at h
  omega

/-- C10 witness: at st_c10 (worker 4 executing) the abort fires iff a task is
in progress, and with none in progress worker 4 ends up available. -/
theorem handle_worker_available_precondition_witness :
    handle_worker_available st_c10 4 true = none ∧
    handle_worker_available st_c10 4 false =
      some (dispatch_tasks { st_c10 with
        executing_workers := (remove_worker_from_vector st_c10.executing_workers 4).2,
        available_workers := st_c10.available_workers ++ [4] }) ∧
    4 ∉ (remove_worker_from_vector st_c10.executing_workers 4).2 :=
  ⟨handle_worker_available_precondition.1 st_c10 4,
   handle_worker_available_precondition.2.1 st_c10 4,
   handle_worker_available_precondition.2.2 st_c10 4 (by unfold workers_disjoint; decide)⟩

/-- C4: an actor-task-scheduled event for an actor whose entry is absent from
the actor_mapping collaborator does not complete: the task is queued on the
per-actor queue, but the unconditional dispatch_actor_task call then aborts
at its CHECK that the actor mapping contains the actor, contradicting the
handler's own comment that this case is tolerated.  The handler evaluates to
the abort (none) at this concrete input. -/
theorem actor_task_scheduled_unknown_mapping_aborts :
    handle_actor_task_scheduled st_empty spec_c4 8 = none := by decide

/-- C5: after handle_object_available(7) on a state where object 7 was being
fetched with one dependent cursor, the ObjectEntry stored in local_objects
still carries that cursor: the source's final clear acts on a dead stack
copy, so the stored dependent_tasks list is not empty as the claim states. -/
theorem object_available_retains_dependent_tasks :
    (handle_object_available st_c5 7).map (fun s => alookup s.local_objects 7) =
      some (some { object_id := 7, dependent_tasks := [1] }) := by decide

/-- C7: for a state whose two cached arrays have equal length N, a
successful actor creation notification re-submits exactly the N cached
specs in order (ghost submitted_log grows by exactly that list), erases
exactly the first N entries of both arrays, and what remains cached
afterwards are exactly the entries re-appended during the replay (one per
pending spec whose actor is still unknown, in order), left for future
notifications. -/
theorem actor_creation_notification_replay :
    ∀ (st : State) (a : ActorID) (st1 : State),
      st.cached_submitted_actor_tasks.length =
        st.cached_submitted_actor_task_sizes.length →
      handle_actor_creation_notification st a = some st1 →
      st1.submitted_log = st.submitted_log ++ st.cached_submitted_actor_tasks ∧
      st1.cached_submitted_actor_tasks =
        st.cached_submitted_actor_tasks.filter
          (fun t => (alookup st.actor_mapping t.actor_id).isNone) ∧
      st1.cached_submitted_actor_task_sizes =
        ((st.cached_submitted_actor_tasks.zip
            st.cached_submitted_actor_task_sizes).filter
          (fun p => (alookup st.actor_mapping p.1.actor_id).isNone)).map Prod.snd := by
  intro st a st1 hlen hsome
  unfold handle_actor_creation_notification at hsome
  rw [if_pos hlen] at hsome
  cases hloop : notif_loop st 0 st.cached_submitted_actor_tasks.length with
  | none =>
    rw [hloop] at hsome
    exact Option.noConfusion hsome
  | some stL =>
    rw [hloop] at hsome
    injection hsome with hsome
    subst hsome
    have hspec := notif_loop_spec st.cached_submitted_actor_tasks
      st.cached_submitted_actor_task_sizes st [] [] [] [] stL
      (by simp) (by simp) rfl hlen hloop
    obtain ⟨_hmap, hcach, hsz, hlog⟩ := hspec
    refine ⟨hlog, ?_, ?_⟩
    · show stL.cached_submitted_actor_tasks.drop
        st.cached_submitted_actor_tasks.length = _
      rw [hcach]
      simp only [List.nil_append, List.append_nil]
      exact List.drop_left _ _
    · show stL.cached_submitted_actor_task_sizes.drop
        st.cached_submitted_actor_tasks.length = _
      rw [hsz]
      simp only [List.nil_append, List.append_nil]
      rw [hlen]
      exact List.drop_left _ _

/-- C7 witness: on st_c7 (one cached task for the still-unknown actor 4)
the notification re-submits it once and re-caches it, leaving the arrays
with exactly the re-appended copies. -/
theorem actor_creation_notification_replay_witness :
    handle_actor_creation_notification st_c7 4 = some st_c7w ∧
    st_c7w.submitted_log =
      st_c7.submitted_log ++ st_c7.cached_submitted_actor_tasks ∧
    st_c7w.cached_submitted_actor_tasks =
      st_c7.cached_submitted_actor_tasks.filter
        (fun t => (alookup st_c7.actor_mapping t.actor_id).isNone) ∧
    st_c7w.cached_submitted_actor_task_sizes =
      ((st_c7.cached_submitted_actor_tasks.zip
          st_c7.cached_submitted_actor_task_sizes).filter
        (fun p => (alookup st_c7.actor_mapping p.1.actor_id).isNone)).map Prod.snd :=
  ⟨by decide,
   actor_creation_notification_replay st_c7 4 st_c7w (by decide) (by decide)⟩

/-- A missed key is rejected by the head and missed by the tail. -/
theorem alookup_cons_none {α : Type} {p : Nat × α} {ps : List (Nat × α)} {k : Nat}
    (h : alookup (p :: ps) k = none) : p.1 ≠ k ∧ alookup ps k = none := by
  rw [alookup] at h
  by_cases hp : p.1 = k
  · rw [if_pos hp] at h
    exact Option.noConfusion h
  · rw [if_neg hp] at h
    exact ⟨hp, h⟩

/-- Lookup walks past a prefix that misses the key. -/
theorem alookup_append_of_none {α : Type} :
    ∀ (l1 l2 : List (Nat × α)) (k : Nat), alookup l1 k = none →
      alookup (l1 ++ l2) k = alookup l2 k := by
  intro l1
  induction l1 with
  | nil => intro l2 k _; rfl
  | cons p ps ih =>
    intro l2 k h
    obtain ⟨hp, hps⟩ := alookup_cons_none h
    rw [List.cons_append, alookup, if_neg hp]
    exact ih l2 k hps

/-- Lookup stops in a prefix that hits the key. -/
theorem alookup_append_of_some {α : Type} :
    ∀ (l1 l2 : List (Nat × α)) (k : Nat) (v : α), alookup l1 k = some v →
      alookup (l1 ++ l2) k = some v := by
  intro l1
  induction l1 with
  | nil => intro l2 k v h; exact Option.noConfusion h
  | cons p ps ih =>
    intro l2 k v h
    rw [alookup] at h
    rw [List.cons_append, alookup]
    by_cases hp : p.1 = k
    · rw [if_pos hp] at h ⊢
      exact h
    · rw [if_neg hp] at h ⊢
      exact ih l2 k v h

/-- Erasing a key removes every binding of it. -/
theorem alookup_aerase_self {α : Type} :
    ∀ (l : List (Nat × α)) (k : Nat), alookup (aerase l k) k = none := by
  intro l k
  induction l with
  | nil => rfl
  | cons p ps ih =>
    rw [aerase]
    by_cases hp : p.1 = k
    · rw [if_pos hp]
      exact ih
    · rw [if_neg hp, alookup, if_neg hp]
      exact ih

/-- Erasing one key leaves lookups of any other key unchanged. -/
theorem alookup_aerase_ne {α : Type} {g k : Nat} (hgk : g ≠ k) :
    ∀ (l : List (Nat × α)), alookup (aerase l k) g = alookup l g := by
  intro l
  induction l with
  | nil => rfl
  | cons p ps ih =>
    rw [aerase]
    by_cases hp : p.1 = k
    · rw [if_pos hp, ih]
      conv_rhs => rw [alookup]
      rw [if_neg (fun he => hgk (by rw [← he]; exact hp))]
    · rw [if_neg hp, alookup, alookup]
      by_cases hg : p.1 = g
      · rw [if_pos hg, if_pos hg]
      · rw [if_neg hg, if_neg hg]
        exact ih

/-- aerase distributes over append. -/
theorem aerase_append {α : Type} :
    ∀ (l1 l2 : List (Nat × α)) (k : Nat),
      aerase (l1 ++ l2) k = aerase l1 k ++ aerase l2 k := by
  intro l1
  induction l1 with
  | nil => intro l2 k; rfl
  | cons p ps ih =>
    intro l2 k
    rw [List.cons_append, aerase, aerase]
    by_cases hp : p.1 = k
    · rw [if_pos hp, if_pos hp, ih]
    · rw [if_neg hp, if_neg hp, ih, List.cons_append]

/-- Erasing an absent key is the identity. -/
theorem aerase_of_none {α : Type} :
    ∀ (l : List (Nat × α)) (k : Nat), alookup l k = none → aerase l k = l := by
  intro l
  induction l with
  | nil => intro k _; rfl
  | cons p ps ih =>
    intro k h
    obtain ⟨hp, hps⟩ := alookup_cons_none h
    rw [aerase, if_neg hp, ih k hps]

/-- aupdate walks past a prefix that misses the key. -/
theorem aupdate_append_of_none {α : Type} :
    ∀ (l1 l2 : List (Nat × α)) (k : Nat) (v : α), alookup l1 k = none →
      aupdate (l1 ++ l2) k v = l1 ++ aupdate l2 k v := by
  intro l1
  induction l1 with
  | nil => intro l2 k v _; rfl
  | cons p ps ih =>
    intro l2 k v h
    obtain ⟨hp, hps⟩ := alookup_cons_none h
    rw [List.cons_append, aupdate, if_neg hp, ih l2 k v hps, List.cons_append]

/-- A found entry carries the cursor it was found by. -/
theorem find_task_some_id :
    ∀ (l : List TaskQueueEntry) (c : Nat) (e : TaskQueueEntry),
      find_task l c = some e → e.spec.task_id = c := by
  intro l
  induction l with
  | nil => intro c e h; exact Option.noConfusion h
  | cons x xs ih =>
    intro c e h
    rw [find_task] at h
    by_cases hx : x.spec.task_id = c
    · rw [if_pos hx, Option.some_inj] at h
      rw [← h]
      exact hx
    · rw [if_neg hx] at h
      exact ih c e h

/-- find_task walks past a prefix with no matching task id. -/
theorem find_task_append_right :
    ∀ (l1 l2 : List TaskQueueEntry) (c : Nat),
      (∀ x ∈ l1, x.spec.task_id ≠ c) →
      find_task (l1 ++ l2) c = find_task l2 c := by
  intro l1
  induction l1 with
  | nil => intro l2 c _; rfl
  | cons x xs ih =>
    intro l2 c h
    rw [List.cons_append, find_task, if_neg (h x (List.mem_cons_self x xs))]
    exact ih l2 c (fun y hy => h y (List.mem_cons_of_mem x hy))

/-- erase_task walks past a prefix with no matching task id. -/
theorem erase_task_append_right :
    ∀ (l1 l2 : List TaskQueueEntry) (c : Nat),
      (∀ x ∈ l1, x.spec.task_id ≠ c) →
      erase_task (l1 ++ l2) c = l1 ++ erase_task l2 c := by
  intro l1
  induction l1 with
  | nil => intro l2 c _; rfl
  | cons x xs ih =>
    intro l2 c h
    rw [List.cons_append, erase_task, if_neg (h x (List.mem_cons_self x xs)),
      ih l2 c (fun y hy => h y (List.mem_cons_of_mem x hy)), List.cons_append]

/-- arg_cursors is the recursive cursor walk at the entry's own task id. -/
theorem arg_cursors_as_list (obj_id : ObjectID) (tid : Nat) :
    ∀ l : List TaskArg,
      l.filterMap (fun a =>
        match a with
        | TaskArg.byRef g => if g = obj_id then some tid else none
        | TaskArg.byValue => none) = arg_cursors_list obj_id tid l := by
  intro l
  induction l with
  | nil => rfl
  | cons a rest ih =>
    cases a with
    | byValue =>
      simp only [List.filterMap_cons, arg_cursors_list]
      exact ih
    | byRef g =>
      by_cases hg : g = obj_id
      · simp only [List.filterMap_cons, arg_cursors_list, if_pos hg]
        rw [ih]
      · simp only [List.filterMap_cons, arg_cursors_list, if_neg hg]
        exact ih

/-- arg_cursors of an entry, via the recursive walk. -/
theorem arg_cursors_eq (obj_id : ObjectID) (e : TaskQueueEntry) :
    arg_cursors obj_id e = arg_cursors_list obj_id e.spec.task_id e.spec.args :=
  arg_cursors_as_list obj_id e.spec.task_id e.spec.args

/-- The cursor walk yields one copy of the task id per matching argument. -/
theorem arg_cursors_list_eq_replicate (obj_id : ObjectID) (tid : Nat) :
    ∀ l : List TaskArg,
      arg_cursors_list obj_id tid l =
        List.replicate (List.count (TaskArg.byRef obj_id) l) tid := by
  intro l
  induction l with
  | nil => rfl
  | cons a rest ih =>
    cases a with
    | byValue =>
      simp only [arg_cursors_list, List.count_cons, ih]
      simp
    | byRef g =>
      by_cases hg : g = obj_id
      · subst hg
        simp only [arg_cursors_list, if_pos rfl, List.count_cons, ih]
        simp [List.replicate_succ]
      · simp only [arg_cursors_list, if_neg hg, List.count_cons, ih]
        simp [hg]

/-- A dependent task has a positive count of by-ref references. -/
theorem count_pos_of_dependent {spec : TaskSpec} {obj_id : ObjectID}
    (h : TaskSpec_is_dependent_on spec obj_id = true) :
    0 < List.count (TaskArg.byRef obj_id) spec.args := by
  rw [TaskSpec_is_dependent_on, List.any_eq_true] at h
  obtain ⟨a, ha, hb⟩ := h
  rw [beq_iff_eq] at hb
  subst hb
  exact List.count_pos_iff.mpr ha

/-- A mover (dependent, referencing the object at most once) contributes
exactly its own cursor. -/
theorem arg_cursors_of_mover {obj_id : ObjectID} {e : TaskQueueEntry}
    (hdep : TaskSpec_is_dependent_on e.spec obj_id = true)
    (hcnt : List.count (TaskArg.byRef obj_id) e.spec.args ≤ 1) :
    arg_cursors obj_id e = [e.spec.task_id] := by
  rw [arg_cursors_eq, arg_cursors_list_eq_replicate]
  have h1 : List.count (TaskArg.byRef obj_id) e.spec.args = 1 :=
    Nat.le_antisymm hcnt (count_pos_of_dependent hdep)
  rw [h1]
  rfl

/-- Flattening singleton images is mapping. -/
theorem flatten_singletons {α β : Type} (f : α → β) :
    ∀ l : List α, (l.map (fun x => [f x])).flatten = l.map f := by
  intro l
  induction l with
  | nil => rfl
  | cons a t ih => simp [ih]

/-- One fetch registration appends one cursor to the object's entry. -/
theorem fetch_step {R0 : List (ObjectID × ObjectEntry)} {obj_id : ObjectID}
    (hR : alookup R0 obj_id = none) (s : State) (acc : List Nat) (c : Nat)
    (hs : s.remote_objects = radd R0 obj_id acc) :
    fetch_missing_dependency s c obj_id =
      { s with remote_objects := radd R0 obj_id (acc ++ [c]) } := by
  by_cases hacc : acc = []
  · subst hacc
    have hs0 : s.remote_objects = R0 := hs
    have hl : alookup s.remote_objects obj_id = none := by
      rw [hs0]
      exact hR
    unfold fetch_missing_dependency
    rw [hl]
    show { s with remote_objects :=
      s.remote_objects ++ [(obj_id, ({ object_id := obj_id, dependent_tasks := [c] } : ObjectEntry))] } = _
    rw [hs0]
    rfl
  · have hs1 : s.remote_objects =
        R0 ++ [(obj_id, { object_id := obj_id, dependent_tasks := acc })] := by
      rw [hs, radd, if_neg hacc]
    have hl : alookup s.remote_objects obj_id =
        some { object_id := obj_id, dependent_tasks := acc } := by
      rw [hs1, alookup_append_of_none _ _ _ hR, alookup, if_pos rfl]
    unfold fetch_missing_dependency
    rw [hl]
    show { s with remote_objects := aupdate s.remote_objects obj_id ({ object_id := obj_id, dependent_tasks := acc ++ [c] } : ObjectEntry) } = _
    rw [hs1, aupdate_append_of_none _ _ _ _ hR, aupdate, if_pos rfl]
    rw [radd, if_neg (by simp)]
    rfl

/-- The argument walk of one entry appends exactly that entry's cursors. -/
theorem register_args_fold {R0 : List (ObjectID × ObjectEntry)} {obj_id : ObjectID}
    (hR : alookup R0 obj_id = none) (tid : Nat) :
    ∀ (l : List TaskArg) (s : State) (acc : List Nat),
      s.remote_objects = radd R0 obj_id acc →
      l.foldl (register_one_fetch obj_id tid) s =
        { s with remote_objects := radd R0 obj_id (acc ++ arg_cursors_list obj_id tid l) } := by
  intro l
  induction l with
  | nil =>
    intro s acc hs
    rw [List.foldl_nil]
    have h1 : acc ++ arg_cursors_list obj_id tid [] = acc := List.append_nil acc
    rw [h1, ← hs]
  | cons a rest ih =>
    intro s acc hs
    rw [List.foldl_cons]
    cases a with
    | byValue =>
      have hstep : register_one_fetch obj_id tid s TaskArg.byValue = s := rfl
      rw [hstep, ih s acc hs]
      have h2 : arg_cursors_list obj_id tid (TaskArg.byValue :: rest) =
          arg_cursors_list obj_id tid rest := by
        simp only [arg_cursors_list]
      rw [h2]
    | byRef g =>
      by_cases hg : g = obj_id
      · have hstep : register_one_fetch obj_id tid s (TaskArg.byRef g) =
            fetch_missing_dependency s tid obj_id := by
          show (if g = obj_id then fetch_missing_dependency s tid obj_id else s) = _
          rw [if_pos hg]
        rw [hstep, fetch_step hR s acc tid hs]
        rw [ih { s with remote_objects := radd R0 obj_id (acc ++ [tid]) } (acc ++ [tid]) rfl]
        have h2 : arg_cursors_list obj_id tid (TaskArg.byRef g :: rest) =
            tid :: arg_cursors_list obj_id tid rest := by
          simp only [arg_cursors_list, if_pos hg]
        have hl : acc ++ arg_cursors_list obj_id tid (TaskArg.byRef g :: rest) =
            (acc ++ [tid]) ++ arg_cursors_list obj_id tid rest := by
          rw [h2, List.append_assoc]
          rfl
        rw [hl]
      · have hstep : register_one_fetch obj_id tid s (TaskArg.byRef g) = s := by
          show (if g = obj_id then fetch_missing_dependency s tid obj_id else s) = _
          rw [if_neg hg]
        rw [hstep, ih s acc hs]
        have h2 : arg_cursors_list obj_id tid (TaskArg.byRef g :: rest) =
            arg_cursors_list obj_id tid rest := by
          simp only [arg_cursors_list, if_neg hg]
        rw [h2]

/-- The waiting-queue registration walk appends exactly the flattened
cursors of the walked entries to the removed object's remote entry. -/
theorem register_fold {R0 : List (ObjectID × ObjectEntry)} {obj_id : ObjectID}
    (hR : alookup R0 obj_id = none) :
    ∀ (l : List TaskQueueEntry) (s : State) (acc : List Nat),
      s.remote_objects = radd R0 obj_id acc →
      l.foldl (register_object_fetches obj_id) s =
        { s with remote_objects := radd R0 obj_id (acc ++ (l.map (arg_cursors obj_id)).flatten) } := by
  intro l
  induction l with
  | nil =>
    intro s acc hs
    rw [List.foldl_nil]
    have h1 : acc ++ (List.map (arg_cursors obj_id) []).flatten = acc := List.append_nil acc
    rw [h1, ← hs]
  | cons e rest ih =>
    intro s acc hs
    rw [List.foldl_cons]
    have hstep : register_object_fetches obj_id s e =
        { s with remote_objects := radd R0 obj_id (acc ++ arg_cursors obj_id e) } := by
      unfold register_object_fetches
      rw [register_args_fold hR e.spec.task_id e.spec.args s acc hs, ← arg_cursors_eq]
    rw [hstep]
    rw [ih { s with remote_objects := radd R0 obj_id (acc ++ arg_cursors obj_id e) } (acc ++ arg_cursors obj_id e) rfl]
    have hl : acc ++ (List.map (arg_cursors obj_id) (e :: rest)).flatten =
        (acc ++ arg_cursors obj_id e) ++ (List.map (arg_cursors obj_id) rest).flatten := by
      rw [List.map_cons, List.flatten_cons, List.append_assoc]
    rw [hl]

/-- Cursors whose dereferenced task cannot run leave the state unchanged. -/
theorem stuck_fold :
    ∀ (cs : List Nat) (s : State),
      (∀ c ∈ cs, ∀ e, find_task s.waiting_task_queue c = some e →
        can_run s e.spec = false) →
      cs.foldl move_runnable s = s := by
  intro cs
  induction cs with
  | nil => intro s _; rfl
  | cons c rest ih =>
    intro s h
    rw [List.foldl_cons]
    have hstep : move_runnable s c = s := by
      cases hf : find_task s.waiting_task_queue c with
      | none =>
        unfold move_runnable
        rw [hf]
      | some e =>
        have hcr : ¬(can_run s e.spec = true) := by
          rw [h c (List.mem_cons_self c rest) e hf]
          exact Bool.false_ne_true
        simp [move_runnable, hf, hcr]
    rw [hstep]
    exact ih s (fun x hx e hf => h x (List.mem_cons_of_mem c hx) e hf)

/-- Moving a block of runnable tasks whose cursors sit behind the fixed
prefix W relocates exactly that block, in order, to the dispatch tail. -/
theorem move_fold (W : List TaskQueueEntry) :
    ∀ (ms : List TaskQueueEntry) (s : State),
      s.waiting_task_queue = W ++ ms →
      (((W ++ ms).map (fun e => e.spec.task_id)).Nodup) →
      (∀ m ∈ ms, can_run s m.spec = true) →
      (ms.map (fun e => e.spec.task_id)).foldl move_runnable s =
        { s with waiting_task_queue := W,
                 dispatch_task_queue := s.dispatch_task_queue ++ ms } := by
  intro ms
  induction ms with
  | nil =>
    intro s hw _ _
    rw [List.map_nil, List.foldl_nil]
    rw [List.append_nil] at hw
    rw [← hw, List.append_nil]
  | cons m rest ih =>
    intro s hw hnd hcr
    have hnd' : ((W ++ rest).map (fun e => e.spec.task_id)).Nodup :=
      List.Nodup.sublist
        (List.Sublist.map _ (List.Sublist.append_left (List.sublist_cons_self m rest) W)) hnd
    have hWne : ∀ x ∈ W, x.spec.task_id ≠ m.spec.task_id := by
      intro x hx heq
      rw [List.map_append, List.nodup_append] at hnd
      have h1 : x.spec.task_id ∈ W.map (fun e => e.spec.task_id) :=
        List.mem_map_of_mem _ hx
      have h2 : x.spec.task_id ∈ (m :: rest).map (fun e => e.spec.task_id) := by
        rw [heq]
        exact List.mem_map_of_mem _ (List.mem_cons_self m rest)
      exact hnd.2.2 h1 h2
    have hf : find_task s.waiting_task_queue m.spec.task_id = some m := by
      rw [hw, find_task_append_right W _ _ hWne, find_task, if_pos rfl]
    have he : erase_task s.waiting_task_queue m.spec.task_id = W ++ rest := by
      rw [hw, erase_task_append_right W _ _ hWne, erase_task, if_pos rfl]
    rw [List.map_cons, List.foldl_cons]
    have hcrm : can_run s m.spec = true := hcr m (List.mem_cons_self m rest)
    have hstep : move_runnable s m.spec.task_id =
        { s with dispatch_task_queue := s.dispatch_task_queue ++ [m],
                 waiting_task_queue := W ++ rest } := by
      simp only [move_runnable, hf, hcrm, if_true]
      rw [he]
    rw [hstep]
    have hrun' : ∀ x ∈ rest, can_run
        { s with dispatch_task_queue := s.dispatch_task_queue ++ [m],
                 waiting_task_queue := W ++ rest } x.spec = true :=
      fun x hx => hcr x (List.mem_cons_of_mem m hx)
    rw [ih { s with dispatch_task_queue := s.dispatch_task_queue ++ [m], waiting_task_queue := W ++ rest } rfl hnd' hrun']
    have hD : (s.dispatch_task_queue ++ [m]) ++ rest =
        s.dispatch_task_queue ++ m :: rest := by
      rw [List.append_assoc]
      rfl
    exact congrArg
      (fun z => { s with waiting_task_queue := W, dispatch_task_queue := z }) hD

/-- A cursor list made of stuck cursors followed by the ids of a runnable
block moves exactly the block to the dispatch tail. -/
theorem split_move_fold (W ms : List TaskQueueEntry) (cw : List Nat)
    (cs : List Nat) (s : State)
    (hcs : cs = cw ++ ms.map (fun e => e.spec.task_id))
    (hw : s.waiting_task_queue = W ++ ms)
    (hnd : ((W ++ ms).map (fun e => e.spec.task_id)).Nodup)
    (hstuck : ∀ c ∈ cw, ∀ e, find_task s.waiting_task_queue c = some e →
      can_run s e.spec = false)
    (hrun : ∀ m ∈ ms, can_run s m.spec = true) :
    cs.foldl move_runnable s =
      { s with waiting_task_queue := W,
               dispatch_task_queue := s.dispatch_task_queue ++ ms } := by
  subst hcs
  rw [List.foldl_append, stuck_fold cw s hstuck]
  exact move_fold W ms s hw hnd hrun

/-- With no available worker the dispatch loop exits at once, at most
spawning a worker process. -/
theorem dispatch_tasks_go_avail_nil (st : State) (h : st.available_workers = []) :
    ∀ (kept rest : List TaskQueueEntry),
      ∃ n, dispatch_tasks_go st kept rest =
        { st with dispatch_task_queue := kept ++ rest, child_pids := n } := by
  intro kept rest
  cases rest with
  | nil =>
    refine ⟨st.child_pids, ?_⟩
    show { st with dispatch_task_queue := kept } = _
    rw [List.append_nil]
  | cons t ts =>
    by_cases hc : st.child_pids = 0
    · refine ⟨st.child_pids + 1, ?_⟩
      simp only [dispatch_tasks_go]
      rw [if_pos h, if_pos hc]
      rfl
    · refine ⟨st.child_pids, ?_⟩
      simp only [dispatch_tasks_go]
      rw [if_pos h, if_neg hc]

/-- dispatch_tasks with no available worker changes only child_pids. -/
theorem dispatch_tasks_avail_nil (st : State) (h : st.available_workers = []) :
    ∃ n, dispatch_tasks st = { st with child_pids := n } := by
  obtain ⟨n, hn⟩ := dispatch_tasks_go_avail_nil st h [] st.dispatch_task_queue
  refine ⟨n, ?_⟩
  rw [dispatch_tasks, hn, List.nil_append]

/-- can_run is monotone along a pointwise-presence-preserving change of the
local object table. -/
theorem can_run_mono {s1 s2 : State}
    (h : ∀ g, (alookup s1.local_objects g).isSome = true →
      (alookup s2.local_objects g).isSome = true) :
    ∀ spec, can_run s1 spec = true → can_run s2 spec = true := by
  intro spec hc
  rw [can_run, List.all_eq_true] at hc ⊢
  intro a ha
  have h1 := hc a ha
  cases a with
  | byValue => rfl
  | byRef g => exact h g h1

/-- handle_object_available, characterized when the object has a remote
entry and is not already local. -/
theorem handle_object_available_of_lookup
    (s : State) (obj_id : ObjectID) (entry : ObjectEntry)
    (h : alookup s.remote_objects obj_id = some entry)
    (hl : alookup s.local_objects obj_id = none) :
    handle_object_available s obj_id =
      (if entry.dependent_tasks = [] then
        some { s with remote_objects := aerase s.remote_objects obj_id,
                      local_objects := s.local_objects ++ [(obj_id, entry)] }
      else some (dispatch_tasks (entry.dependent_tasks.foldl move_runnable
        { s with remote_objects := aerase s.remote_objects obj_id,
                 local_objects := s.local_objects ++ [(obj_id, entry)] }))) := by
  unfold handle_object_available
  rw [h, hl]
  rfl

/-- handle_object_available, characterized when the object has no remote
entry and is not already local. -/
theorem handle_object_available_of_lookup_none
    (s : State) (obj_id : ObjectID)
    (h : alookup s.remote_objects obj_id = none)
    (hl : alookup s.local_objects obj_id = none) :
    handle_object_available s obj_id =
      some { s with remote_objects := aerase s.remote_objects obj_id,
                    local_objects := s.local_objects ++
                      [(obj_id, { object_id := obj_id, dependent_tasks := [] })] } := by
  unfold handle_object_available
  rw [h, hl]
  rfl

/-- C3 (amended): for an object O locally present, absent from the remote
table, with no available worker, every waiting task blocked on some other
missing object, every dispatch task runnable and referencing O at most once,
and all queued task ids distinct, handling object_removed(O) then
object_available(O) restores the waiting queue and the remote table exactly,
restores the dispatch queue up to moving the O-dependent tasks, in their
relative order, to its tail, and stores back for O an entry carrying the
fetch cursors registered while O was away rather than the original one.  The
original claim, that all four components return exactly to their pre-removal
values, is false: the dispatch queue is reordered and the stored entry keeps
its cursors. -/
theorem object_remove_available_roundtrip :
    ∀ (st : State) (O : ObjectID),
      (alookup st.local_objects O).isSome = true →
      alookup st.remote_objects O = none →
      st.available_workers = [] →
      (∀ e ∈ st.waiting_task_queue, blocked_elsewhere st O e = true) →
      (∀ e ∈ st.dispatch_task_queue, can_run st e.spec = true) →
      (∀ e ∈ st.dispatch_task_queue, List.count (TaskArg.byRef O) e.spec.args ≤ 1) →
      ((st.waiting_task_queue ++ st.dispatch_task_queue).map
        (fun e => e.spec.task_id)).Nodup →
      ∃ stF,
        (handle_object_removed st O).bind (fun s => handle_object_available s O) =
          some stF ∧
        stF.waiting_task_queue = st.waiting_task_queue ∧
        stF.dispatch_task_queue = st.dispatch_task_queue.filter (fun e => !(TaskSpec_is_dependent_on e.spec O)) ++ st.dispatch_task_queue.filter (fun e => TaskSpec_is_dependent_on e.spec O) ∧
        stF.remote_objects = st.remote_objects ∧
        stF.local_objects = aerase st.local_objects O ++ [(O, ({ object_id := O, dependent_tasks := ((st.waiting_task_queue ++ st.dispatch_task_queue.filter (fun e => TaskSpec_is_dependent_on e.spec O)).map (arg_cursors O)).flatten } : ObjectEntry))] := by
  intro st O hloc hrem havail hwait hdisp hcnt hnodup
  have hmov_cursor : ∀ e ∈ st.dispatch_task_queue.filter (fun e => TaskSpec_is_dependent_on e.spec O), arg_cursors O e = [e.spec.task_id] := by
    intro e he
    exact arg_cursors_of_mover (List.mem_filter.mp he).2 (hcnt e (List.mem_of_mem_filter he))
  have hCW : ∀ c ∈ (st.waiting_task_queue.map (arg_cursors O)).flatten, ∃ w ∈ st.waiting_task_queue, w.spec.task_id = c := by
    intro c hc
    rw [List.mem_flatten] at hc
    obtain ⟨l2, hl2, hcl⟩ := hc
    rw [List.mem_map] at hl2
    obtain ⟨w, hw, hwl⟩ := hl2
    refine ⟨w, hw, ?_⟩
    rw [← hwl] at hcl
    rw [arg_cursors_eq, arg_cursors_list_eq_replicate] at hcl
    exact (List.eq_of_mem_replicate hcl).symm
  have hnodup2 : ((st.waiting_task_queue ++ st.dispatch_task_queue.filter (fun e => TaskSpec_is_dependent_on e.spec O)).map (fun e => e.spec.task_id)).Nodup :=
    List.Nodup.sublist
      (List.Sublist.map _ (List.Sublist.append_left (List.filter_sublist _) _)) hnodup
  have hrm : handle_object_removed st O = some { st with local_objects := aerase st.local_objects O, dispatch_task_queue := st.dispatch_task_queue.filter (fun e => !(TaskSpec_is_dependent_on e.spec O)), waiting_task_queue := st.waiting_task_queue ++ st.dispatch_task_queue.filter (fun e => TaskSpec_is_dependent_on e.spec O), remote_objects := radd st.remote_objects O (((st.waiting_task_queue ++ st.dispatch_task_queue.filter (fun e => TaskSpec_is_dependent_on e.spec O)).map (arg_cursors O)).flatten) } := by
    unfold handle_object_removed
    rw [hloc]
    show some ((st.waiting_task_queue ++ st.dispatch_task_queue.filter (fun e => TaskSpec_is_dependent_on e.spec O)).foldl (register_object_fetches O) { st with local_objects := aerase st.local_objects O, dispatch_task_queue := st.dispatch_task_queue.filter (fun e => !(TaskSpec_is_dependent_on e.spec O)), waiting_task_queue := st.waiting_task_queue ++ st.dispatch_task_queue.filter (fun e => TaskSpec_is_dependent_on e.spec O) }) = _
    rw [register_fold hrem (st.waiting_task_queue ++ st.dispatch_task_queue.filter (fun e => TaskSpec_is_dependent_on e.spec O)) { st with local_objects := aerase st.local_objects O, dispatch_task_queue := st.dispatch_task_queue.filter (fun e => !(TaskSpec_is_dependent_on e.spec O)), waiting_task_queue := st.waiting_task_queue ++ st.dispatch_task_queue.filter (fun e => TaskSpec_is_dependent_on e.spec O) } [] rfl]
    rfl
  by_cases hC : ((st.waiting_task_queue ++ st.dispatch_task_queue.filter (fun e => TaskSpec_is_dependent_on e.spec O)).map (arg_cursors O)).flatten = []
  · have hmov : st.dispatch_task_queue.filter (fun e => TaskSpec_is_dependent_on e.spec O) = [] := by
      cases hm : st.dispatch_task_queue.filter (fun e => TaskSpec_is_dependent_on e.spec O) with
      | nil => rfl
      | cons m ms =>
        exfalso
        have hmm : m ∈ st.dispatch_task_queue.filter (fun e => TaskSpec_is_dependent_on e.spec O) := by
          rw [hm]
          exact List.mem_cons_self m ms
        have hcur : arg_cursors O m = [m.spec.task_id] := hmov_cursor m hmm
        have htid : m.spec.task_id ∈ ((st.waiting_task_queue ++ st.dispatch_task_queue.filter (fun e => TaskSpec_is_dependent_on e.spec O)).map (arg_cursors O)).flatten := by
          rw [List.mem_flatten]
          refine ⟨arg_cursors O m, List.mem_map_of_mem _ (List.mem_append_right _ hmm), ?_⟩
          rw [hcur]
          exact List.mem_singleton.mpr rfl
        rw [hC] at htid
        exact List.not_mem_nil _ htid
    rw [hC] at hrm
    rw [hmov, List.append_nil] at hrm
    have hav0 : handle_object_available { st with local_objects := aerase st.local_objects O, dispatch_task_queue := st.dispatch_task_queue.filter (fun e => !(TaskSpec_is_dependent_on e.spec O)), waiting_task_queue := st.waiting_task_queue, remote_objects := radd st.remote_objects O [] } O =
        some { ({ st with local_objects := aerase st.local_objects O, dispatch_task_queue := st.dispatch_task_queue.filter (fun e => !(TaskSpec_is_dependent_on e.spec O)), waiting_task_queue := st.waiting_task_queue, remote_objects := radd st.remote_objects O [] } : State) with remote_objects := aerase (radd st.remote_objects O []) O, local_objects := aerase st.local_objects O ++ [(O, ({ object_id := O, dependent_tasks := [] } : ObjectEntry))] } := by
      exact handle_object_available_of_lookup_none { st with local_objects := aerase st.local_objects O, dispatch_task_queue := st.dispatch_task_queue.filter (fun e => !(TaskSpec_is_dependent_on e.spec O)), waiting_task_queue := st.waiting_task_queue, remote_objects := radd st.remote_objects O [] } O hrem (alookup_aerase_self st.local_objects O)
    refine ⟨{ ({ st with local_objects := aerase st.local_objects O, dispatch_task_queue := st.dispatch_task_queue.filter (fun e => !(TaskSpec_is_dependent_on e.spec O)), waiting_task_queue := st.waiting_task_queue, remote_objects := radd st.remote_objects O [] } : State) with remote_objects := aerase (radd st.remote_objects O []) O, local_objects := aerase st.local_objects O ++ [(O, ({ object_id := O, dependent_tasks := [] } : ObjectEntry))] }, ?_, ?_, ?_, ?_, ?_⟩
    · rw [hrm]
      simp only [Option.some_bind]
      exact hav0
    · rfl
    · rw [hmov, List.append_nil]
    · show aerase st.remote_objects O = st.remote_objects
      exact aerase_of_none _ _ hrem
    · rw [hC]
  · have hradd : radd st.remote_objects O (((st.waiting_task_queue ++ st.dispatch_task_queue.filter (fun e => TaskSpec_is_dependent_on e.spec O)).map (arg_cursors O)).flatten) =
        st.remote_objects ++ [(O, ({ object_id := O, dependent_tasks := ((st.waiting_task_queue ++ st.dispatch_task_queue.filter (fun e => TaskSpec_is_dependent_on e.spec O)).map (arg_cursors O)).flatten } : ObjectEntry))] := by
      rw [radd, if_neg hC]
    have hlook : alookup ({ st with local_objects := aerase st.local_objects O, dispatch_task_queue := st.dispatch_task_queue.filter (fun e => !(TaskSpec_is_dependent_on e.spec O)), waiting_task_queue := st.waiting_task_queue ++ st.dispatch_task_queue.filter (fun e => TaskSpec_is_dependent_on e.spec O), remote_objects := radd st.remote_objects O (((st.waiting_task_queue ++ st.dispatch_task_queue.filter (fun e => TaskSpec_is_dependent_on e.spec O)).map (arg_cursors O)).flatten) } : State).remote_objects O = some ({ object_id := O, dependent_tasks := ((st.waiting_task_queue ++ st.dispatch_task_queue.filter (fun e => TaskSpec_is_dependent_on e.spec O)).map (arg_cursors O)).flatten } : ObjectEntry) := by
      show alookup (radd st.remote_objects O (((st.waiting_task_queue ++ st.dispatch_task_queue.filter (fun e => TaskSpec_is_dependent_on e.spec O)).map (arg_cursors O)).flatten)) O = some ({ object_id := O, dependent_tasks := ((st.waiting_task_queue ++ st.dispatch_task_queue.filter (fun e => TaskSpec_is_dependent_on e.spec O)).map (arg_cursors O)).flatten } : ObjectEntry)
      rw [hradd, alookup_append_of_none _ _ _ hrem, alookup, if_pos rfl]
    have hguard : alookup ({ st with local_objects := aerase st.local_objects O, dispatch_task_queue := st.dispatch_task_queue.filter (fun e => !(TaskSpec_is_dependent_on e.spec O)), waiting_task_queue := st.waiting_task_queue ++ st.dispatch_task_queue.filter (fun e => TaskSpec_is_dependent_on e.spec O), remote_objects := radd st.remote_objects O (((st.waiting_task_queue ++ st.dispatch_task_queue.filter (fun e => TaskSpec_is_dependent_on e.spec O)).map (arg_cursors O)).flatten) } : State).local_objects O = none :=
      alookup_aerase_self st.local_objects O
    have hCne : ¬((({ object_id := O, dependent_tasks := ((st.waiting_task_queue ++ st.dispatch_task_queue.filter (fun e => TaskSpec_is_dependent_on e.spec O)).map (arg_cursors O)).flatten } : ObjectEntry)).dependent_tasks = []) := hC
    have hClist : ((st.waiting_task_queue ++ st.dispatch_task_queue.filter (fun e => TaskSpec_is_dependent_on e.spec O)).map (arg_cursors O)).flatten = (st.waiting_task_queue.map (arg_cursors O)).flatten ++ (st.dispatch_task_queue.filter (fun e => TaskSpec_is_dependent_on e.spec O)).map (fun e => e.spec.task_id) := by
      rw [List.map_append, List.flatten_append, List.map_congr_left hmov_cursor,
        flatten_singletons]
    have hstuck : ∀ c ∈ (st.waiting_task_queue.map (arg_cursors O)).flatten, ∀ e,
        find_task ({ st with local_objects := aerase st.local_objects O ++ [(O, ({ object_id := O, dependent_tasks := ((st.waiting_task_queue ++ st.dispatch_task_queue.filter (fun e => TaskSpec_is_dependent_on e.spec O)).map (arg_cursors O)).flatten } : ObjectEntry))], dispatch_task_queue := st.dispatch_task_queue.filter (fun e => !(TaskSpec_is_dependent_on e.spec O)), waiting_task_queue := st.waiting_task_queue ++ st.dispatch_task_queue.filter (fun e => TaskSpec_is_dependent_on e.spec O), remote_objects := aerase (radd st.remote_objects O (((st.waiting_task_queue ++ st.dispatch_task_queue.filter (fun e => TaskSpec_is_dependent_on e.spec O)).map (arg_cursors O)).flatten)) O } : State).waiting_task_queue c = some e →
        can_run { st with local_objects := aerase st.local_objects O ++ [(O, ({ object_id := O, dependent_tasks := ((st.waiting_task_queue ++ st.dispatch_task_queue.filter (fun e => TaskSpec_is_dependent_on e.spec O)).map (arg_cursors O)).flatten } : ObjectEntry))], dispatch_task_queue := st.dispatch_task_queue.filter (fun e => !(TaskSpec_is_dependent_on e.spec O)), waiting_task_queue := st.waiting_task_queue ++ st.dispatch_task_queue.filter (fun e => TaskSpec_is_dependent_on e.spec O), remote_objects := aerase (radd st.remote_objects O (((st.waiting_task_queue ++ st.dispatch_task_queue.filter (fun e => TaskSpec_is_dependent_on e.spec O)).map (arg_cursors O)).flatten)) O } e.spec = false := by
      intro c hc e hfind
      obtain ⟨w, hwW, hwid⟩ := hCW c hc
      have hmem2 : e ∈ st.waiting_task_queue ++ st.dispatch_task_queue.filter (fun e => TaskSpec_is_dependent_on e.spec O) := find_task_some_mem _ _ _ hfind
      have hid := find_task_some_id _ _ _ hfind
      have hew : e = w := List.inj_on_of_nodup_map hnodup2 hmem2
        (List.mem_append_left _ hwW) (by rw [hid, hwid])
      rw [hew]
      have hb := hwait w hwW
      rw [blocked_elsewhere, List.any_eq_true] at hb
      obtain ⟨a, ha, hpa⟩ := hb
      cases a with
      | byValue => exact Bool.noConfusion hpa
      | byRef g =>
        have hpa2 : (!(g == O)) = true ∧ (alookup st.local_objects g).isNone = true := by
          rw [← Bool.and_eq_true]
          exact hpa
        have hgO : g ≠ O := by
          have h1 := hpa2.1
          rw [Bool.not_eq_true', beq_eq_false_iff_ne] at h1
          exact h1
        have hnone : alookup st.local_objects g = none :=
          Option.isNone_iff_eq_none.mp hpa2.2
        have hpre : alookup (aerase st.local_objects O) g = none := by
          rw [alookup_aerase_ne hgO]
          exact hnone
        refine Bool.eq_false_iff.mpr (fun hcr => ?_)
        rw [can_run, List.all_eq_true] at hcr
        have h2 := hcr (TaskArg.byRef g) ha
        have h3 : (alookup (aerase st.local_objects O ++ [(O, ({ object_id := O, dependent_tasks := ((st.waiting_task_queue ++ st.dispatch_task_queue.filter (fun e => TaskSpec_is_dependent_on e.spec O)).map (arg_cursors O)).flatten } : ObjectEntry))]) g).isSome = true := h2
        rw [alookup_append_of_none _ _ _ hpre, alookup,
          if_neg (fun hh => hgO (Eq.symm hh))] at h3
        exact Bool.noConfusion h3
    have hrun : ∀ m ∈ st.dispatch_task_queue.filter (fun e => TaskSpec_is_dependent_on e.spec O), can_run { st with local_objects := aerase st.local_objects O ++ [(O, ({ object_id := O, dependent_tasks := ((st.waiting_task_queue ++ st.dispatch_task_queue.filter (fun e => TaskSpec_is_dependent_on e.spec O)).map (arg_cursors O)).flatten } : ObjectEntry))], dispatch_task_queue := st.dispatch_task_queue.filter (fun e => !(TaskSpec_is_dependent_on e.spec O)), waiting_task_queue := st.waiting_task_queue ++ st.dispatch_task_queue.filter (fun e => TaskSpec_is_dependent_on e.spec O), remote_objects := aerase (radd st.remote_objects O (((st.waiting_task_queue ++ st.dispatch_task_queue.filter (fun e => TaskSpec_is_dependent_on e.spec O)).map (arg_cursors O)).flatten)) O } m.spec = true := by
      intro m hm
      refine can_run_mono ?_ m.spec (hdisp m (List.mem_of_mem_filter hm))
      intro g hg
      show (alookup (aerase st.local_objects O ++ [(O, ({ object_id := O, dependent_tasks := ((st.waiting_task_queue ++ st.dispatch_task_queue.filter (fun e => TaskSpec_is_dependent_on e.spec O)).map (arg_cursors O)).flatten } : ObjectEntry))]) g).isSome = true
      by_cases hgO : g = O
      · subst hgO
        rw [alookup_append_of_none _ _ _ (alookup_aerase_self st.local_objects g),
          alookup, if_pos rfl]
        rfl
      · obtain ⟨v, hv⟩ := Option.isSome_iff_exists.mp hg
        have hsome2 : alookup (aerase st.local_objects O) g = some v := by
          rw [alookup_aerase_ne hgO]
          exact hv
        rw [alookup_append_of_some _ _ _ _ hsome2]
        rfl
    have hfold2 : (((st.waiting_task_queue ++ st.dispatch_task_queue.filter (fun e => TaskSpec_is_dependent_on e.spec O)).map (arg_cursors O)).flatten).foldl move_runnable { st with local_objects := aerase st.local_objects O ++ [(O, ({ object_id := O, dependent_tasks := ((st.waiting_task_queue ++ st.dispatch_task_queue.filter (fun e => TaskSpec_is_dependent_on e.spec O)).map (arg_cursors O)).flatten } : ObjectEntry))], dispatch_task_queue := st.dispatch_task_queue.filter (fun e => !(TaskSpec_is_dependent_on e.spec O)), waiting_task_queue := st.waiting_task_queue ++ st.dispatch_task_queue.filter (fun e => TaskSpec_is_dependent_on e.spec O), remote_objects := aerase (radd st.remote_objects O (((st.waiting_task_queue ++ st.dispatch_task_queue.filter (fun e => TaskSpec_is_dependent_on e.spec O)).map (arg_cursors O)).flatten)) O } = { st with local_objects := aerase st.local_objects O ++ [(O, ({ object_id := O, dependent_tasks := ((st.waiting_task_queue ++ st.dispatch_task_queue.filter (fun e => TaskSpec_is_dependent_on e.spec O)).map (arg_cursors O)).flatten } : ObjectEntry))], dispatch_task_queue := st.dispatch_task_queue.filter (fun e => !(TaskSpec_is_dependent_on e.spec O)) ++ st.dispatch_task_queue.filter (fun e => TaskSpec_is_dependent_on e.spec O), waiting_task_queue := st.waiting_task_queue, remote_objects := aerase (radd st.remote_objects O (((st.waiting_task_queue ++ st.dispatch_task_queue.filter (fun e => TaskSpec_is_dependent_on e.spec O)).map (arg_cursors O)).flatten)) O } :=
      split_move_fold st.waiting_task_queue (st.dispatch_task_queue.filter (fun e => TaskSpec_is_dependent_on e.spec O)) ((st.waiting_task_queue.map (arg_cursors O)).flatten) (((st.waiting_task_queue ++ st.dispatch_task_queue.filter (fun e => TaskSpec_is_dependent_on e.spec O)).map (arg_cursors O)).flatten) { st with local_objects := aerase st.local_objects O ++ [(O, ({ object_id := O, dependent_tasks := ((st.waiting_task_queue ++ st.dispatch_task_queue.filter (fun e => TaskSpec_is_dependent_on e.spec O)).map (arg_cursors O)).flatten } : ObjectEntry))], dispatch_task_queue := st.dispatch_task_queue.filter (fun e => !(TaskSpec_is_dependent_on e.spec O)), waiting_task_queue := st.waiting_task_queue ++ st.dispatch_task_queue.filter (fun e => TaskSpec_is_dependent_on e.spec O), remote_objects := aerase (radd st.remote_objects O (((st.waiting_task_queue ++ st.dispatch_task_queue.filter (fun e => TaskSpec_is_dependent_on e.spec O)).map (arg_cursors O)).flatten)) O }
        hClist rfl hnodup2 hstuck hrun
    have hav2 : handle_object_available { st with local_objects := aerase st.local_objects O, dispatch_task_queue := st.dispatch_task_queue.filter (fun e => !(TaskSpec_is_dependent_on e.spec O)), waiting_task_queue := st.waiting_task_queue ++ st.dispatch_task_queue.filter (fun e => TaskSpec_is_dependent_on e.spec O), remote_objects := radd st.remote_objects O (((st.waiting_task_queue ++ st.dispatch_task_queue.filter (fun e => TaskSpec_is_dependent_on e.spec O)).map (arg_cursors O)).flatten) } O = some (dispatch_tasks { st with local_objects := aerase st.local_objects O ++ [(O, ({ object_id := O, dependent_tasks := ((st.waiting_task_queue ++ st.dispatch_task_queue.filter (fun e => TaskSpec_is_dependent_on e.spec O)).map (arg_cursors O)).flatten } : ObjectEntry))], dispatch_task_queue := st.dispatch_task_queue.filter (fun e => !(TaskSpec_is_dependent_on e.spec O)) ++ st.dispatch_task_queue.filter (fun e => TaskSpec_is_dependent_on e.spec O), waiting_task_queue := st.waiting_task_queue, remote_objects := aerase (radd st.remote_objects O (((st.waiting_task_queue ++ st.dispatch_task_queue.filter (fun e => TaskSpec_is_dependent_on e.spec O)).map (arg_cursors O)).flatten)) O }) := by
      rw [handle_object_available_of_lookup { st with local_objects := aerase st.local_objects O, dispatch_task_queue := st.dispatch_task_queue.filter (fun e => !(TaskSpec_is_dependent_on e.spec O)), waiting_task_queue := st.waiting_task_queue ++ st.dispatch_task_queue.filter (fun e => TaskSpec_is_dependent_on e.spec O), remote_objects := radd st.remote_objects O (((st.waiting_task_queue ++ st.dispatch_task_queue.filter (fun e => TaskSpec_is_dependent_on e.spec O)).map (arg_cursors O)).flatten) } O ({ object_id := O, dependent_tasks := ((st.waiting_task_queue ++ st.dispatch_task_queue.filter (fun e => TaskSpec_is_dependent_on e.spec O)).map (arg_cursors O)).flatten } : ObjectEntry) hlook hguard, if_neg hCne]
      exact congrArg (fun z => some (dispatch_tasks z)) hfold2
    obtain ⟨n, hdt⟩ := dispatch_tasks_avail_nil ({ st with local_objects := aerase st.local_objects O ++ [(O, ({ object_id := O, dependent_tasks := ((st.waiting_task_queue ++ st.dispatch_task_queue.filter (fun e => TaskSpec_is_dependent_on e.spec O)).map (arg_cursors O)).flatten } : ObjectEntry))], dispatch_task_queue := st.dispatch_task_queue.filter (fun e => !(TaskSpec_is_dependent_on e.spec O)) ++ st.dispatch_task_queue.filter (fun e => TaskSpec_is_dependent_on e.spec O), waiting_task_queue := st.waiting_task_queue, remote_objects := aerase (radd st.remote_objects O (((st.waiting_task_queue ++ st.dispatch_task_queue.filter (fun e => TaskSpec_is_dependent_on e.spec O)).map (arg_cursors O)).flatten)) O }) havail
    refine ⟨{ ({ st with local_objects := aerase st.local_objects O ++ [(O, ({ object_id := O, dependent_tasks := ((st.waiting_task_queue ++ st.dispatch_task_queue.filter (fun e => TaskSpec_is_dependent_on e.spec O)).map (arg_cursors O)).flatten } : ObjectEntry))], dispatch_task_queue := st.dispatch_task_queue.filter (fun e => !(TaskSpec_is_dependent_on e.spec O)) ++ st.dispatch_task_queue.filter (fun e => TaskSpec_is_dependent_on e.spec O), waiting_task_queue := st.waiting_task_queue, remote_objects := aerase (radd st.remote_objects O (((st.waiting_task_queue ++ st.dispatch_task_queue.filter (fun e => TaskSpec_is_dependent_on e.spec O)).map (arg_cursors O)).flatten)) O } : State) with child_pids := n }, ?_, ?_, ?_, ?_, ?_⟩
    · rw [hrm]
      simp only [Option.some_bind]
      rw [hav2]
      exact congrArg some hdt
    · rfl
    · rfl
    · show aerase (radd st.remote_objects O (((st.waiting_task_queue ++ st.dispatch_task_queue.filter (fun e => TaskSpec_is_dependent_on e.spec O)).map (arg_cursors O)).flatten)) O = st.remote_objects
      rw [hradd, aerase_append, aerase_of_none _ _ hrem, aerase, if_pos rfl]
      exact List.append_nil _
    · rfl

/-- C3 counterexample: at st_c3 the round trip on object 5 moves the
5-dependent task to the dispatch tail and stores the cursor it registered,
so the dispatch queue and the local object table do not return to their
pre-removal values. -/
theorem object_remove_available_roundtrip_counterexample :
    (handle_object_removed st_c3 5).bind (fun s => handle_object_available s 5) =
      some st_c3f ∧
    st_c3f.waiting_task_queue = st_c3.waiting_task_queue ∧
    st_c3f.remote_objects = st_c3.remote_objects ∧
    st_c3f.dispatch_task_queue ≠ st_c3.dispatch_task_queue ∧
    st_c3f.local_objects ≠ st_c3.local_objects :=
  ⟨by decide, by decide, by decide, by decide, by decide⟩

/-- C3 witness: the amended round trip evaluated at st_c3 and object 5,
shown with every hypothesis discharged on the concrete state. -/
theorem object_remove_available_roundtrip_witness :
    ∃ stF,
      (handle_object_removed st_c3 5).bind (fun s => handle_object_available s 5) =
        some stF ∧
      stF.waiting_task_queue = st_c3.waiting_task_queue ∧
      stF.dispatch_task_queue =
        st_c3.dispatch_task_queue.filter (fun e => !(TaskSpec_is_dependent_on e.spec 5)) ++
        st_c3.dispatch_task_queue.filter (fun e => TaskSpec_is_dependent_on e.spec 5) ∧
      stF.remote_objects = st_c3.remote_objects ∧
      stF.local_objects = aerase st_c3.local_objects 5 ++
        [(5, ({ object_id := 5, dependent_tasks :=
          (((st_c3.waiting_task_queue ++
            st_c3.dispatch_task_queue.filter (fun e => TaskSpec_is_dependent_on e.spec 5)).map
            (arg_cursors 5)).flatten) } : ObjectEntry))] :=
  object_remove_available_roundtrip st_c3 5 (by decide) (by decide) (by decide)
    (by decide) (by decide) (by decide) (by decide)

end LocalSchedulerAlgorithm
